import Mathlib

/-!
Verification development for the SQL guardrail engine (`app/evals/guardrails.py`)
and the SQL extraction/validation/execution pipeline (`app/db/sql_query_executor.py`).

The Python code works on strings with `re`; here each concrete regular
expression used by the source is translated into an executable scanner over
`List Char`.  Character classes follow the ASCII fragment of the originals
(`\w`, `\s`, case mapping); the source only ever matches ASCII SQL keywords.
-/

namespace SqlSpec

/-- Word character in the sense of the regex class `\w` (ASCII fragment). -/
def isWordChar (c : Char) : Bool := c.isAlpha || c.isDigit || c == '_'

/-- Whitespace in the sense of the regex class `\s` and of `str.split`
(ASCII fragment). -/
def isWs (c : Char) : Bool :=
  c == ' ' || c == '\t' || c == '\n' || c == '\r' || c == '\x0b' || c == '\x0c'

/-- Drop characters up to and including the next newline (used by the
line-comment stripper: the match of the sub-pattern `(\n|$)` consumes the
newline when one is present). -/
def dropToEol : List Char → List Char
  | [] => []
  | c :: cs => if c == '\n' then cs else dropToEol cs

theorem dropToEol_length_le (s : List Char) : (dropToEol s).length ≤ s.length := by
  induction s with
  | nil => simp [dropToEol]
  | cons c cs ih =>
    simp only [dropToEol]
    split
    · simp
    · simpa using Nat.le_succ_of_le ih

/-- Implements `re.sub(r'--.*?(\n|$)', ' ', q)`: every `--` starts a match
reaching the nearest newline (inclusive) or the end of the string, replaced
by a single space.  Fueled by the input length (each step consumes at least
one character, see `dropToEol_length_le`). -/
def stripLineCommentsAux : Nat → List Char → List Char
  | 0, _ => []
  | _, [] => []
  | fuel + 1, '-' :: '-' :: cs => ' ' :: stripLineCommentsAux fuel (dropToEol cs)
  | fuel + 1, c :: cs => c :: stripLineCommentsAux fuel cs

def stripLineComments (s : List Char) : List Char := stripLineCommentsAux s.length s

/-- Scan for the closing `*/` of a block comment; returns the remainder
after it when found. -/
def dropToCloseStar : List Char → Option (List Char)
  | [] => none
  | [_] => none
  | c :: d :: cs => if c == '*' && d == '/' then some cs else dropToCloseStar (d :: cs)

theorem dropToCloseStar_length_le {s r : List Char} :
    dropToCloseStar s = some r → r.length ≤ s.length := by
  induction s with
  | nil => intro h; simp [dropToCloseStar] at h
  | cons c cs ih =>
    intro h
    cases cs with
    | nil => simp [dropToCloseStar] at h
    | cons d ds =>
      simp only [dropToCloseStar] at h
      split at h
      · injection h with h; subst h; simp; omega
      · exact Nat.le_succ_of_le (ih h)

/-- Implements `re.sub(r'/\*.*?\*/', ' ', q, flags=re.DOTALL)`: each `/*`
with a later `*/` is replaced (lazily, up to the nearest `*/`) by a single
space; a `/*` with no closing `*/` is left as is.  Fueled by the input
length (see `dropToCloseStar_length_le`). -/
def stripBlockCommentsAux : Nat → List Char → List Char
  | 0, _ => []
  | _, [] => []
  | fuel + 1, '/' :: '*' :: cs =>
    match dropToCloseStar cs with
    | some r => ' ' :: stripBlockCommentsAux fuel r
    | none => '/' :: stripBlockCommentsAux fuel ('*' :: cs)
  | fuel + 1, c :: cs => c :: stripBlockCommentsAux fuel cs

def stripBlockComments (s : List Char) : List Char := stripBlockCommentsAux s.length s

/-- Maximal non-whitespace prefix and the remainder (helper for `str.split`). -/
def takeWord (s : List Char) : List Char × List Char :=
  (s.takeWhile (fun c => !isWs c), s.dropWhile (fun c => !isWs c))

/-- Implements `str.split()` (split on whitespace runs, no empty fields). -/
def pyWordsAux : Nat → List Char → List (List Char)
  | 0, _ => []
  | _, [] => []
  | fuel + 1, c :: cs =>
    if isWs c then pyWordsAux fuel cs
    else
      let p := takeWord cs
      (c :: p.1) :: pyWordsAux fuel p.2

def pyWords (s : List Char) : List (List Char) := pyWordsAux s.length s

/-- Implements `' '.join(words)`. -/
def joinSpace : List (List Char) → List Char
  | [] => []
  | [w] => w
  | w :: ws => w ++ ' ' :: joinSpace ws

/-- Implements `_normalize_query` of `SQLGuardrails` (and the identical
normalization opening `validate_sql_query`): strip `--` line comments, strip
`/* */` block comments, then collapse all whitespace via
`' '.join(q.split())`. -/
def pyNormalize (q : String) : String :=
  ⟨joinSpace (pyWords (stripBlockComments (stripLineComments q.data)))⟩

/-- Implements `str.upper()` (ASCII fragment, matching the ASCII keyword
matching of the source). -/
def upperStr (s : String) : String := ⟨s.data.map Char.toUpper⟩

/-- Uppercased normalized text, the value `self._normalize_query(query).upper()`
common to the check families. -/
def normUp (q : String) : List Char := (upperStr (pyNormalize q)).data

/-- Does the word `w` (all word characters) match at the head of `s`,
followed by a non-word character or the end (the trailing `\b`)? -/
def wordAt : List Char → List Char → Bool
  | [], [] => true
  | [], c :: _ => !isWordChar c
  | _ :: _, [] => false
  | c :: ws, d :: ds => c == d && wordAt ws ds

/-- Implements `re.search(r'\b' + w + r'\b', s)` for a keyword `w` made of
word characters.  The boolean argument says whether the current position
follows a non-word character (or is the start of the string). -/
def searchWord (w : List Char) : Bool → List Char → Bool
  | _, [] => false
  | bnd, c :: cs => (bnd && wordAt w (c :: cs)) || searchWord w (!isWordChar c) cs

/-- Whole-word containment at the string level. -/
def containsWord (w s : String) : Bool := searchWord w.data true s.data

/-- Expect the literal word `w` at the head of `s`; return the remainder. -/
def litS (w : String) (s : List Char) : Option (List Char) :=
  if w.data.isPrefixOf s then some (s.drop w.data.length) else none

/-- Expect one specific character. -/
def expectChar (c : Char) : List Char → Option (List Char)
  | d :: r => if d == c then some r else none
  | [] => none

/-- Skip a maximal (possibly empty) whitespace run: the pattern piece `\s*`
followed by a non-whitespace literal. -/
def skipWs (s : List Char) : List Char := s.dropWhile isWs

/-- Consume at least one whitespace character, then a maximal whitespace
run: the pattern piece `\s+` followed by a non-whitespace literal. -/
def skipWs1 : List Char → Option (List Char)
  | c :: cs => if isWs c then some (skipWs cs) else none
  | [] => none

/-- Consume exactly one whitespace character. -/
def oneWs : List Char → Option (List Char)
  | c :: cs => if isWs c then some cs else none
  | [] => none

/-- Expect a quote character, single or double: the class `['\"]`. -/
def expectQuote : List Char → Option (List Char)
  | c :: cs => if c == '\'' || c == '"' then some cs else none
  | [] => none

/-- Search: does `p` hold at some position of `s` (regex `re.search`
over an anchored matcher `p`)? -/
def searchB (p : List Char → Bool) : List Char → Bool
  | [] => p []
  | c :: cs => p (c :: cs) || searchB p cs

/-- Search restricted to the current line: positions reachable through the
lazy piece `.*?` (which does not cross a newline). -/
def searchNoNlB (p : List Char → Bool) : List Char → Bool
  | [] => p []
  | c :: cs => p (c :: cs) || (!(c == '\n') && searchNoNlB p cs)

/-- Search over positions reachable through `\s*.*?` (an optional leading
whitespace run, which may cross newlines, followed by same-line characters).
The flag records whether we are still inside the leading whitespace run. -/
def searchWsTailB (p : List Char → Bool) : Bool → List Char → Bool
  | _, [] => p []
  | inWs, c :: cs =>
    p (c :: cs) ||
      (if c == '\n' then inWs && searchWsTailB p true cs
       else searchWsTailB p (inWs && isWs c) cs)

/-- Plain substring containment (`w` a nonempty literal). -/
def containsSubstr (w : String) (s : List Char) : Bool :=
  searchB (fun t => (litS w t).isSome) s

/-- Non-overlapping substring count, as `str.count`. -/
def countSubstrAux (w : List Char) : Nat → List Char → Nat
  | 0, _ => 0
  | _, [] => 0
  | fuel + 1, d :: cs =>
    if !w.isEmpty && w.isPrefixOf (d :: cs) then
      1 + countSubstrAux w fuel ((d :: cs).drop w.length)
    else countSubstrAux w fuel cs

def countSubstr (w : String) (s : List Char) : Nat := countSubstrAux w.data s.length s

/-- Count of non-overlapping whole-word occurrences:
`len(re.findall(r'\bw\b', s))`. -/
def countWordAux (w : List Char) : Nat → Bool → List Char → Nat
  | 0, _, _ => 0
  | _, _, [] => 0
  | fuel + 1, bnd, c :: cs =>
    if bnd && wordAt w (c :: cs) then 1 + countWordAux w fuel false ((c :: cs).drop w.length)
    else countWordAux w fuel (!isWordChar c) cs

def countWord (w : String) (s : List Char) : Nat := countWordAux w.data s.length true s

/-- Count occurrences of one character (`str.count` with a single char). -/
def countChar (c : Char) (s : List Char) : Nat := (s.filter (fun d => d == c)).length

/-- Digit run helper for `\d+`. -/
def takeDigits (s : List Char) : List Char × List Char :=
  (s.takeWhile Char.isDigit, s.dropWhile Char.isDigit)

/-- Numeric value of a digit run, as `int(...)` on the captured group. -/
def natOfDigits (ds : List Char) : Nat :=
  ds.foldl (fun a c => a * 10 + (c.toNat - '0'.toNat)) 0

/-! ### Guardrail data model (`guardrails.py`) -/

inductive GuardrailViolationType
  | security | safety | performance | schema | complexity | format
deriving DecidableEq, Repr

inductive RiskLevel
  | critical | high | medium | low | info
deriving DecidableEq, Repr

structure GuardrailViolation where
  violation_type : GuardrailViolationType
  risk_level : RiskLevel
  message : String
  /-- The snippet produced by `_extract_snippet` is presentation-only context;
  its extraction is not modelled (no claim refers to it) and the field is
  kept as an opaque `Option` set to `none` wherever the source fills it. -/
  query_snippet : Option String := none
  suggestion : Option String := none
  blocks_execution : Bool := true
deriving DecidableEq, Repr

/-- Metadata of one validation run.  The wall-clock `timestamp` entry is
environment input and is not modelled; the two value-determined entries are. -/
structure GuardrailMetadata where
  query_length : Nat
  normalized_query : String
deriving DecidableEq, Repr

structure GuardrailResult where
  is_safe : Bool
  violations : List GuardrailViolation
  warnings : List GuardrailViolation
  metadata : GuardrailMetadata
deriving DecidableEq, Repr

/-- Implements `GuardrailResult.get_critical_violations`. -/
def GuardrailResult.get_critical_violations (r : GuardrailResult) : List GuardrailViolation :=
  r.violations.filter (fun v => v.risk_level == RiskLevel.critical)

/-- Implements `GuardrailResult.get_blocking_violations`. -/
def GuardrailResult.get_blocking_violations (r : GuardrailResult) : List GuardrailViolation :=
  r.violations.filter (fun v => v.blocks_execution)

structure GuardrailConfig where
  max_rows : Nat
  default_row_limit : Nat
  warn_row_threshold : Nat
  max_joins : Nat
  max_subqueries : Nat
  max_query_length : Nat
  timeout_seconds : Nat
  allow_modifications : Bool
  allow_schema_changes : Bool
  require_where_for_delete : Bool
  validate_tables : Bool
  validate_columns : Bool
  known_tables : List String
deriving DecidableEq, Repr

/-- Implements `SQLGuardrails._default_config`. -/
def defaultConfig : GuardrailConfig where
  max_rows := 10000
  default_row_limit := 1000
  warn_row_threshold := 5000
  max_joins := 5
  max_subqueries := 3
  max_query_length := 5000
  timeout_seconds := 30
  allow_modifications := false
  allow_schema_changes := false
  require_where_for_delete := true
  validate_tables := true
  validate_columns := false
  known_tables := ["customer_information", "transaction_history", "crs",
    "crs_account_report", "crs_countrycode", "crs_messagespec"]

/-! ### Security check (`_check_security`): anchored matchers for the ten
injection patterns and the obfuscation pattern. -/

/-- Matcher for `;\s*DROP\s+TABLE`. -/
def matchSemiDropTable (s : List Char) : Bool :=
  (do
    let r ← expectChar ';' s
    let r ← litS "DROP" (skipWs r)
    let r ← skipWs1 r
    litS "TABLE" r).isSome

/-- Matcher for `;\s*DELETE\s+FROM`. -/
def matchSemiDeleteFrom (s : List Char) : Bool :=
  (do
    let r ← expectChar ';' s
    let r ← litS "DELETE" (skipWs r)
    let r ← skipWs1 r
    litS "FROM" r).isSome

/-- Matcher for `;\s*UPDATE\s+`. -/
def matchSemiUpdate (s : List Char) : Bool :=
  (do
    let r ← expectChar ';' s
    let r ← litS "UPDATE" (skipWs r)
    skipWs1 r).isSome

/-- Matcher for `UNION\s+.*?\s+SELECT.*?--`. -/
def matchUnionComment (s : List Char) : Bool :=
  match litS "UNION" s with
  | none => false
  | some r =>
    match oneWs r with
    | none => false
    | some r =>
      searchWsTailB
        (fun t =>
          match skipWs1 t with
          | none => false
          | some t =>
            match litS "SELECT" t with
            | none => false
            | some t => searchNoNlB (fun u => (litS "--" u).isSome) t)
        true r

/-- Matcher for `'\s*OR\s+['\"]\s*['\"]?\s*=\s*['\"]`. -/
def matchOrQuoteEq (s : List Char) : Bool :=
  (do
    let r ← expectChar '\'' s
    let r ← litS "OR" (skipWs r)
    let r ← skipWs1 r
    let r ← expectQuote r
    let r := skipWs r
    let r2 ←
      (do
        let t ← expectQuote r
        expectChar '=' (skipWs t)) <|> expectChar '=' r
    expectQuote (skipWs r2)).isSome

/-- Matcher for `'\s*OR\s+1\s*=\s*1`. -/
def matchOr1Eq1 (s : List Char) : Bool :=
  (do
    let r ← expectChar '\'' s
    let r ← litS "OR" (skipWs r)
    let r ← skipWs1 r
    let r ← expectChar '1' r
    let r ← expectChar '=' (skipWs r)
    expectChar '1' (skipWs r)).isSome

/-- Matcher for `EXEC\s*\(` (and, with the other literal, `EXECUTE\s*\(`). -/
def matchCallParen (w : String) (s : List Char) : Bool :=
  (do
    let r ← litS w s
    expectChar '(' (skipWs r)).isSome

/-- The ten `injection_patterns` of `_check_security`, in source order. -/
def securityInjectionHits (n : List Char) : List (Bool × String) :=
  [ (searchB matchSemiDropTable n, "SQL injection: DROP TABLE after semicolon"),
    (searchB matchSemiDeleteFrom n, "SQL injection: DELETE after semicolon"),
    (searchB matchSemiUpdate n, "SQL injection: UPDATE after semicolon"),
    (searchB matchUnionComment n, "SQL injection: UNION with comment"),
    (searchB matchOrQuoteEq n, "SQL injection: OR with always-true condition"),
    (searchB matchOr1Eq1 n, "SQL injection: OR 1=1"),
    (searchB (matchCallParen "EXEC") n, "Dynamic SQL execution attempt"),
    (searchB (matchCallParen "EXECUTE") n, "Dynamic SQL execution attempt"),
    (containsSubstr "XP_CMDSHELL" n, "OS command execution attempt"),
    (containsSubstr "SP_EXECUTESQL" n, "Dynamic SQL execution attempt") ]

/-- Implements `SQLGuardrails._check_security`. -/
def check_security (q : String) : List GuardrailViolation :=
  let n := normUp q
  (securityInjectionHits n).filterMap (fun p =>
    if p.1 then
      some { violation_type := .security, risk_level := .critical,
             message := "Security violation: " ++ p.2,
             query_snippet := none,
             suggestion := some "Remove malicious SQL patterns",
             blocks_execution := true }
    else none)
  ++
  (if searchB (matchCallParen "CHAR") n || searchB (matchCallParen "ASCII") n
      || searchB (matchCallParen "CONVERT") n then
    [{ violation_type := .security, risk_level := .high,
       message := "Potential obfuscation detected (CHAR/ASCII/CONVERT)",
       query_snippet := none,
       suggestion := some "Use plain SQL without encoding",
       blocks_execution := true }]
  else [])

/-! ### Safety check (`_check_safety`) -/

/-- The `destructive_ops` table, in source (insertion) order. -/
def destructiveOps : List (String × String) :=
  [ ("DELETE", "DELETE operation"), ("UPDATE", "UPDATE operation"),
    ("INSERT", "INSERT operation"), ("TRUNCATE", "TRUNCATE operation"),
    ("DROP", "DROP operation"), ("ALTER", "ALTER operation"),
    ("CREATE", "CREATE operation"), ("MERGE", "MERGE operation") ]

/-- Matcher for `SELECT\s+.*?\s+INTO\s+`. -/
def matchSelectInto (s : List Char) : Bool :=
  match litS "SELECT" s with
  | none => false
  | some r =>
    match oneWs r with
    | none => false
    | some r =>
      searchWsTailB
        (fun t =>
          match skipWs1 t with
          | none => false
          | some t =>
            match litS "INTO" t with
            | none => false
            | some t => (skipWs1 t).isSome)
        true r

/-- Implements `SQLGuardrails._check_safety`. -/
def check_safety (q : String) : List GuardrailViolation :=
  let n := normUp q
  destructiveOps.filterMap (fun p =>
    if searchWord p.1.data true n then
      some { violation_type := .safety, risk_level := .critical,
             message := "Destructive operation blocked: " ++ p.2,
             query_snippet := none,
             suggestion := some "Only SELECT queries are allowed",
             blocks_execution := true }
    else none)
  ++
  (if searchB matchSelectInto n then
    [{ violation_type := .safety, risk_level := .high,
       message := "SELECT INTO operation blocked (creates tables)",
       query_snippet := none,
       suggestion := some "Use standard SELECT without INTO",
       blocks_execution := true }]
  else [])
  ++
  (if searchWord "FROM".data true n && !searchWord "WHERE".data true n
      && !(searchWord "TOP".data true n || searchWord "LIMIT".data true n) then
    [{ violation_type := .performance, risk_level := .medium,
       message := "Query missing WHERE clause and row limit",
       query_snippet := none,
       suggestion := some "Add WHERE clause or TOP/LIMIT to prevent full table scan",
       blocks_execution := false }]
  else [])

/-! ### Performance check (`_check_performance`) -/

/-- Matcher for `SELECT\s+\*`. -/
def matchSelectStar (s : List Char) : Bool :=
  (do
    let r ← litS "SELECT" s
    let r ← skipWs1 r
    expectChar '*' r).isSome

/-- Anchored match of `TOP\s+(\d+)`: returns the captured value and the
remainder after the digit run. -/
def matchTopNum (s : List Char) : Option (Nat × List Char) := do
  let r ← litS "TOP" s
  let r ← skipWs1 r
  let p := takeDigits r
  if p.1.isEmpty then none else some (natOfDigits p.1, p.2)

/-- Value of the first (leftmost) match of `TOP\s+(\d+)`, the expression
`int(re.search(r'TOP\s+(\d+)', normalized).group(1))`. -/
def firstTopNum : List Char → Option Nat
  | [] => none
  | c :: cs =>
    match matchTopNum (c :: cs) with
    | some p => some p.1
    | none => firstTopNum cs

/-- Anchored match of the word-bounded `\bTOP\s+\d+\b` (leading boundary
supplied by the caller). -/
def matchTopBounded (bnd : Bool) (s : List Char) : Bool :=
  bnd &&
    (match matchTopNum s with
     | some p => match p.2 with | [] => true | c :: _ => !isWordChar c
     | none => false)

/-- Implements `re.search(r'\bTOP\s+\d+\b', normalized)` as a boolean. -/
def hasTopBounded : Bool → List Char → Bool
  | _, [] => false
  | bnd, c :: cs => matchTopBounded bnd (c :: cs) || hasTopBounded (!isWordChar c) cs

/-- Implements `SQLGuardrails._check_performance`.  The result is `none`
exactly when the source would raise: `has_top` matched but the unbounded
re-parse `re.search(r'TOP\s+(\d+)', ...)` found nothing (so `.group(1)`
would be called on `None`).  The unused `has_limit` variable of the source
has no effect and is not modelled. -/
def check_performance (cfg : GuardrailConfig) (q : String) : Option (List GuardrailViolation) :=
  let n := normUp q
  let lenPart :=
    if q.length > cfg.max_query_length then
      [{ violation_type := .performance, risk_level := .high,
         message := "Query too long (" ++ toString q.length ++ " chars, max "
           ++ toString cfg.max_query_length ++ ")",
         query_snippet := none,
         suggestion := some "Simplify query or break into smaller queries",
         blocks_execution := true : GuardrailViolation }]
    else []
  let joinCount := countWord "JOIN" n
  let joinPart :=
    if joinCount > cfg.max_joins then
      [{ violation_type := .performance, risk_level := .high,
         message := "Too many JOINs (" ++ toString joinCount ++ ", max "
           ++ toString cfg.max_joins ++ ")",
         query_snippet := none,
         suggestion := some "Reduce number of JOINs or use temporary tables",
         blocks_execution := true : GuardrailViolation }]
    else []
  let subqueryCount : Int := (countSubstr "SELECT" n : Int) - 1
  let subqPart :=
    if subqueryCount > (cfg.max_subqueries : Int) then
      [{ violation_type := .performance, risk_level := .medium,
         message := "Too many subqueries (" ++ toString subqueryCount ++ ", max "
           ++ toString cfg.max_subqueries ++ ")",
         query_snippet := none,
         suggestion := some "Simplify query or use CTEs",
         blocks_execution := false : GuardrailViolation }]
    else []
  let starPart :=
    if searchB matchSelectStar n then
      [{ violation_type := .performance, risk_level := .low,
         message := "SELECT * may return unnecessary columns",
         query_snippet := none,
         suggestion := some "Specify only needed columns",
         blocks_execution := false : GuardrailViolation }]
    else []
  if hasTopBounded true n then
    match firstTopNum n with
    | some tv =>
      some (lenPart ++ joinPart ++ subqPart ++ starPart ++
        (if tv > cfg.max_rows then
          [{ violation_type := .performance, risk_level := .high,
             message := "TOP value too large (" ++ toString tv ++ ", max "
               ++ toString cfg.max_rows ++ ")",
             query_snippet := none,
             suggestion := some ("Reduce TOP to " ++ toString cfg.max_rows ++ " or less"),
             blocks_execution := true : GuardrailViolation }]
        else []))
    | none => none
  else some (lenPart ++ joinPart ++ subqPart ++ starPart)

/-! ### Schema check (`_check_schema`) -/

/-- Anchored match of `\bFROM\s+(\w+)` (leading boundary supplied by the
caller); returns the captured identifier and the remainder. -/
def matchFromTable (s : List Char) : Option (List Char × List Char) := do
  let r ← litS "FROM" s
  let r ← skipWs1 r
  let t := r.takeWhile isWordChar
  if t.isEmpty then none else some (t, r.drop t.length)

/-- Anchored match of `JOIN\s+(\w+)` (this alternative of the source regex
carries no word boundary). -/
def matchJoinTable (s : List Char) : Option (List Char × List Char) := do
  let r ← litS "JOIN" s
  let r ← skipWs1 r
  let t := r.takeWhile isWordChar
  if t.isEmpty then none else some (t, r.drop t.length)

/-- Implements `re.findall(r'\bFROM\s+(\w+)|JOIN\s+(\w+)', normalized)`
followed by `m[0] or m[1]`: leftmost non-overlapping matches, first
alternative preferred at equal positions. -/
def findTablesAux : Nat → Bool → List Char → List String
  | 0, _, _ => []
  | _, _, [] => []
  | fuel + 1, bnd, c :: cs =>
    match (if bnd then matchFromTable (c :: cs) else none) with
    | some p => (⟨p.1⟩ : String) :: findTablesAux fuel false p.2
    | none =>
      match matchJoinTable (c :: cs) with
      | some p => (⟨p.1⟩ : String) :: findTablesAux fuel false p.2
      | none => findTablesAux fuel (!isWordChar c) cs

def findTables (s : List Char) : List String := findTablesAux s.length true s

/-- Implements `SQLGuardrails._check_schema`.  The source strips a schema
prefix with `table.split('.')[-1]`; a `\w+` capture never contains a dot,
so that step is the identity and is folded away. -/
def check_schema (cfg : GuardrailConfig) (q : String) : List GuardrailViolation :=
  let n := normUp q
  let knownUpper := cfg.known_tables.map upperStr
  (findTables n).filterMap (fun t =>
    if knownUpper.contains t then none
    else
      some { violation_type := .schema, risk_level := .high,
             message := "Unknown table referenced: " ++ t,
             query_snippet := none,
             suggestion := some ("Use one of the known tables: "
               ++ String.intercalate ", " cfg.known_tables),
             blocks_execution := true })

/-! ### Format check (`_check_format`) -/

/-- Implements `str.strip()` (ASCII whitespace fragment). -/
def pyStrip (s : List Char) : List Char :=
  ((s.dropWhile isWs).reverse.dropWhile isWs).reverse

/-- Case-insensitive `wordAt` for an uppercase pattern word. -/
def wordAtCI : List Char → List Char → Bool
  | [], [] => true
  | [], c :: _ => !isWordChar c
  | _ :: _, [] => false
  | c :: ws, d :: ds => c == d.toUpper && wordAtCI ws ds

/-- Implements `re.match(r'^\s*(SELECT|WITH)\b', normalized, re.IGNORECASE)`. -/
def matchStartSelectWith (n : List Char) : Bool :=
  wordAtCI "SELECT".data (skipWs n) || wordAtCI "WITH".data (skipWs n)

/-- Implements `SQLGuardrails._check_format`. -/
def check_format (q : String) : List GuardrailViolation :=
  let n := (pyNormalize q).data
  if q.data.isEmpty || (pyStrip q.data).isEmpty then
    [{ violation_type := .format, risk_level := .critical,
       message := "Query is empty",
       query_snippet := none,
       suggestion := some "Provide a valid SQL query",
       blocks_execution := true }]
  else
    (if !matchStartSelectWith n then
      [{ violation_type := .format, risk_level := .high,
         message := "Query must start with SELECT or WITH",
         query_snippet := none,
         suggestion := some "Only SELECT and CTE queries are allowed",
         blocks_execution := true : GuardrailViolation }]
    else [])
    ++
    (let openP := countChar '(' n
     let closeP := countChar ')' n
     if !(openP == closeP) then
      [{ violation_type := .format, risk_level := .high,
         message := "Unbalanced parentheses (open: " ++ toString openP
           ++ ", close: " ++ toString closeP ++ ")",
         query_snippet := none,
         suggestion := some "Check query syntax for missing parentheses",
         blocks_execution := true : GuardrailViolation }]
    else [])

/-! ### Verdict assembly (`validate_query`) and convenience wrappers -/

/-- Implements `SQLGuardrails.validate_query`.  `none` models the one
reachable-looking exception site (the TOP re-parse in the performance
check); totality is proved below. -/
def validate_query (cfg : GuardrailConfig) (q : String) : Option GuardrailResult :=
  match check_performance cfg q with
  | none => none
  | some perf =>
    let violations :=
      check_security q ++ check_safety q ++ perf ++ check_format q ++
        (if cfg.validate_tables then check_schema cfg q else [])
    let blocking := violations.filter (fun v => v.blocks_execution)
    let nonBlocking := violations.filter (fun v => !v.blocks_execution)
    some { is_safe := blocking.isEmpty,
           violations := blocking,
           warnings := nonBlocking,
           metadata := { query_length := q.length, normalized_query := pyNormalize q } }

/-- Implements the module-level `quick_validate` (which constructs a
default-config engine). -/
def quick_validate (q : String) : Option (Bool × String) :=
  (validate_query defaultConfig q).map (fun result =>
    if result.is_safe then (true, "Query passed all guardrail checks")
    else
      let critical_violations := result.get_critical_violations
      if !critical_violations.isEmpty then
        (false, String.intercalate "; " (critical_violations.map (fun v => v.message)))
      else (true, "Query has warnings but is allowed"))

/-! ### Executor-side validation (`validate_sql_query` in `sql_query_executor.py`).
All its patterns carry `re.IGNORECASE` and run on the comment-stripped,
whitespace-collapsed text (the same normalization as the guardrail engine),
so the matchers below compare case-insensitively against uppercase pattern
literals. -/

/-- Case-insensitive prefix test against an uppercase pattern word. -/
def isPrefixCI : List Char → List Char → Bool
  | [], _ => true
  | _ :: _, [] => false
  | c :: ws, d :: ds => c == d.toUpper && isPrefixCI ws ds

/-- Case-insensitive literal consumption. -/
def litCI (w : String) (s : List Char) : Option (List Char) :=
  if isPrefixCI w.data s then some (s.drop w.data.length) else none

/-- Case-insensitive literal with a trailing word boundary. -/
def litWordCI (w : String) (s : List Char) : Option (List Char) :=
  match litCI w s with
  | none => none
  | some r =>
    match r with
    | [] => some []
    | c :: _ => if isWordChar c then none else some r

/-- Search with a leading word-boundary state (for patterns opening with
`\b`); the matcher receives the boundary flag of the current position. -/
def searchBnd (p : Bool → List Char → Bool) : Bool → List Char → Bool
  | bnd, [] => p bnd []
  | bnd, c :: cs => p bnd (c :: cs) || searchBnd p (!isWordChar c) cs

/-- Implements `re.match(r'\s*WITH\s+.*?\s+AS\s*\(', nq, re.IGNORECASE)`. -/
def matchCteStart (nq : List Char) : Bool :=
  match litCI "WITH" (skipWs nq) with
  | none => false
  | some r =>
    match oneWs r with
    | none => false
    | some r =>
      searchWsTailB
        (fun t =>
          match skipWs1 t with
          | none => false
          | some t =>
            match litCI "AS" t with
            | none => false
            | some t => (expectChar '(' (skipWs t)).isSome)
        true r

/-- Anchored match of one split point of
`re.split(r'\)\s*,?\s*(?:SELECT|WITH)\b', nq, flags=re.IGNORECASE)`;
returns the remainder after the consumed separator. -/
def matchCteSplitPoint (s : List Char) : Option (List Char) :=
  match expectChar ')' s with
  | none => none
  | some r =>
    let r := skipWs r
    let r := match expectChar ',' r with
      | some r2 => skipWs r2
      | none => r
    litWordCI "SELECT" r <|> litWordCI "WITH" r

/-- The parts produced by the `re.split` above (separators dropped). -/
def cteSplitAux : Nat → List Char → List Char → List (List Char)
  | 0, acc, _ => [acc.reverse]
  | _, acc, [] => [acc.reverse]
  | fuel + 1, acc, c :: cs =>
    match matchCteSplitPoint (c :: cs) with
    | some rest => acc.reverse :: cteSplitAux fuel [] rest
    | none => cteSplitAux fuel (c :: acc) cs

def cteSplit (nq : List Char) : List (List Char) := cteSplitAux nq.length [] nq

/-- Implements `re.search(r'\)\s*SELECT\b', nq, re.IGNORECASE)`. -/
def searchCloseParenSelect (nq : List Char) : Bool :=
  searchB
    (fun s =>
      match expectChar ')' s with
      | none => false
      | some r => (litWordCI "SELECT" (skipWs r)).isSome)
    nq

/-- The `dangerous_keywords` list, in source order. -/
def dangerousKeywords : List String :=
  [ "INSERT", "UPDATE", "DELETE", "DROP", "CREATE", "ALTER", "TRUNCATE",
    "MERGE", "REPLACE", "EXEC", "EXECUTE", "CALL",
    "GRANT", "REVOKE", "COMMIT", "ROLLBACK", "SAVEPOINT",
    "BACKUP", "RESTORE", "SHUTDOWN",
    "OPENROWSET", "OPENDATASOURCE" ]

/-- Implements `re.search(r'\b' + kw + r'\b\s*[\s\(;]', nq, re.IGNORECASE)`.
Since the class `[\s\(;]` contains only non-word characters and includes all
of `\s`, the pattern is equivalent to a word-start-bounded keyword followed
directly by a whitespace, `(` or `;` character. -/
def searchKwOp (kw : String) (nq : List Char) : Bool :=
  searchBnd
    (fun bnd s =>
      bnd && isPrefixCI kw.data s &&
        (match s.drop kw.data.length with
         | c :: _ => isWs c || c == '(' || c == ';'
         | [] => false))
    true nq

/-- The six destructive alternatives shared by two suspicious patterns
(no trailing word boundary in the source regexes). -/
def suspiciousVerbs : List String :=
  ["INSERT", "UPDATE", "DELETE", "DROP", "CREATE", "ALTER"]

/-- Matcher for `;\s*(INSERT|UPDATE|DELETE|DROP|CREATE|ALTER)`. -/
def matchSemiVerb (s : List Char) : Bool :=
  match expectChar ';' s with
  | none => false
  | some r => suspiciousVerbs.any (fun v => (litCI v (skipWs r)).isSome)

/-- Matcher for `UNION.*?(INSERT|UPDATE|DELETE|DROP|CREATE|ALTER)`. -/
def matchUnionVerb (s : List Char) : Bool :=
  match litCI "UNION" s with
  | none => false
  | some r => searchNoNlB (fun t => suspiciousVerbs.any (fun v => (litCI v t).isSome)) r

/-- Matcher for `--.*;`. -/
def matchDashDashSemi (s : List Char) : Bool :=
  match litS "--" s with
  | none => false
  | some r => searchNoNlB (fun t => (expectChar ';' t).isSome) r

/-- Matcher for `/\*.*?;.*?\*/` (no DOTALL here, so everything stays on
one line). -/
def matchBlockCommentSemi (s : List Char) : Bool :=
  match litS "/*" s with
  | none => false
  | some r =>
    searchNoNlB
      (fun t =>
        match expectChar ';' t with
        | none => false
        | some t => searchNoNlB (fun u => (litS "*/" u).isSome) t)
      r

/-- Matcher for `\bXP_\w+\s*\(` and `\bSP_\w+\s*\(` (leading boundary
supplied by the caller). -/
def matchStoredProc (w : String) (bnd : Bool) (s : List Char) : Bool :=
  bnd &&
    (match litCI w s with
     | none => false
     | some r =>
       let ids := r.takeWhile isWordChar
       !ids.isEmpty && (expectChar '(' (skipWs (r.drop ids.length))).isSome)

/-- Matcher for `WAITFOR\s+DELAY`. -/
def matchWaitforDelay (s : List Char) : Bool :=
  (do
    let r ← litCI "WAITFOR" s
    let r ← skipWs1 r
    litCI "DELAY" r).isSome

/-- The `suspicious_patterns` disjunction of `validate_sql_query`. -/
def anySuspicious (nq : List Char) : Bool :=
  searchB matchSemiVerb nq || searchB matchUnionVerb nq ||
  searchB matchDashDashSemi nq || searchB matchBlockCommentSemi nq ||
  searchBnd (matchStoredProc "XP_") true nq ||
  searchBnd (matchStoredProc "SP_") true nq ||
  searchB matchWaitforDelay nq

/-- Matcher for `(\bOR|\bAND)\s+['\"]\s*['\"]\s*=` (leading boundary
supplied by the caller). -/
def matchBoolEmptyEq (bnd : Bool) (s : List Char) : Bool :=
  bnd &&
    (match litCI "OR" s <|> litCI "AND" s with
     | none => false
     | some r =>
       (do
         let r ← skipWs1 r
         let r ← expectQuote r
         let r ← expectQuote (skipWs r)
         expectChar '=' (skipWs r)).isSome)

/-- Matcher for `(\bOR|\bAND)\s+\d+\s*=\s*\d+\s+--`. -/
def matchBoolTrueComment (bnd : Bool) (s : List Char) : Bool :=
  bnd &&
    (match litCI "OR" s <|> litCI "AND" s with
     | none => false
     | some r =>
       (do
         let r ← skipWs1 r
         let p := takeDigits r
         let r ← if p.1.isEmpty then none else some p.2
         let r ← expectChar '=' (skipWs r)
         let p2 := takeDigits (skipWs r)
         let r ← if p2.1.isEmpty then none else some p2.2
         let r ← skipWs1 r
         litS "--" r).isSome)

/-- Matcher for `'\s*;\s*--`. -/
def matchQuoteSemiComment (s : List Char) : Bool :=
  (do
    let r ← expectChar '\'' s
    let r ← expectChar ';' (skipWs r)
    litS "--" (skipWs r)).isSome

/-- Matcher for `'\s*;\s*/\*`. -/
def matchQuoteSemiBlock (s : List Char) : Bool :=
  (do
    let r ← expectChar '\'' s
    let r ← expectChar ';' (skipWs r)
    litS "/*" (skipWs r)).isSome

/-- The `injection_patterns` disjunction of `validate_sql_query`. -/
def anyInjection (nq : List Char) : Bool :=
  searchBnd matchBoolEmptyEq true nq || searchBnd matchBoolTrueComment true nq ||
  searchB matchQuoteSemiComment nq || searchB matchQuoteSemiBlock nq

/-- The keyword / suspicious / injection stage of `validate_sql_query`,
entered only after the leading-shape gate. -/
def vsqSecondStage (nq : List Char) : Bool × String :=
  match dangerousKeywords.find? (fun kw => searchKwOp kw nq) with
  | some kw => (false, "Dangerous SQL keyword detected: " ++ kw)
  | none =>
    if anySuspicious nq then (false, "Suspicious SQL pattern detected")
    else if anyInjection nq then (false, "SQL injection pattern detected")
    else (true, "Query is valid")

/-- Implements `validate_sql_query` of `sql_query_executor.py`. -/
def validate_sql_query (query : String) : Bool × String :=
  let nq := (pyNormalize query).data
  if matchCteStart nq then
    let cte_parts := cteSplit nq
    if cte_parts.length > 1 then
      let final_query_part := "SELECT".data ++ (cte_parts.reverse.headD [])
      if !(litWordCI "SELECT" (skipWs final_query_part)).isSome then
        (false, "CTEs must end with a SELECT statement")
      else vsqSecondStage nq
    else
      if !searchCloseParenSelect nq then
        (false, "CTEs must end with a SELECT statement")
      else vsqSecondStage nq
  else if !(litWordCI "SELECT" (skipWs nq)).isSome then
    (false, "Only SELECT statements are allowed")
  else vsqSecondStage nq

/-! ### The SQL cleaner (`clean_sql_query` in `sql_query_executor.py`).

Each `re.sub` is modelled by a scanner with the exact match extents of the
Python engine: `^...$`-anchored patterns (MULTILINE) match only at line
starts, greedy `\s*`/`\s+` runs may cross newlines, a trailing `\s*$`
absorbs whitespace up to the end of the string or up to (excluding) the
last newline of the following whitespace run, and `.` never matches a
newline. -/

/-- Rest of the current line (the region a `.*` can consume). -/
def lineRestOf (s : List Char) : List Char := s.takeWhile (fun c => !(c == '\n'))

/-- Maximal whitespace run (the region a greedy `\s*` spans; may cross
newlines). -/
def wsRun (s : List Char) : List Char := s.takeWhile isWs

/-- Index of the last newline of a list, if any. -/
def lastNlIdx : List Char → Option Nat
  | [] => none
  | c :: cs =>
    match lastNlIdx cs with
    | some k => some (k + 1)
    | none => if c == '\n' then some 0 else none

/-- Number of characters consumed by a trailing `\s*$` (MULTILINE) starting
at `rest`: all of a whitespace run reaching the end of the string, otherwise
up to (excluding) the last newline of the run; no match when the run
contains no newline and does not reach the end. -/
def tailWsEnd (rest : List Char) : Option Nat :=
  let w := wsRun rest
  if w.length == rest.length then some w.length
  else lastNlIdx w

/-- Matcher for `^#+\s*.*$` (MULTILINE). -/
def matchHeader (s : List Char) : Option Nat :=
  let hashes := s.takeWhile (fun c => c == '#')
  if hashes.isEmpty then none
  else
    let r := s.drop hashes.length
    let w := wsRun r
    some (hashes.length + w.length + (lineRestOf (r.drop w.length)).length)

/-- Matcher for `^```\s*sql\s*$` (MULTILINE; the `sql` literal is
case-sensitive, the sub carries no IGNORECASE flag). -/
def matchFenceSql (s : List Char) : Option Nat := do
  let r ← litS "```" s
  let w := wsRun r
  let r2 ← litS "sql" (r.drop w.length)
  let t ← tailWsEnd r2
  some (3 + w.length + 3 + t)

/-- Matcher for `^```\s*$` (MULTILINE). -/
def matchFenceBare (s : List Char) : Option Nat := do
  let r ← litS "```" s
  let t ← tailWsEnd r
  some (3 + t)

/-- Backtracking over the split of `\s+[^S][^E][^L]` for the numbered-list
pattern: try the largest whitespace consumption first. -/
def numTailAux (base : Nat) (r3 : List Char) : Nat → Option Nat
  | 0 => none
  | k + 1 =>
    match r3.drop (k + 1) with
    | c1 :: c2 :: c3 :: rest2 =>
      if !(c1.toUpper == 'S') && !(c2.toUpper == 'E') && !(c3.toUpper == 'L') then
        some (base + (k + 1) + 3 + (lineRestOf rest2).length)
      else numTailAux base r3 k
    | _ => numTailAux base r3 k

/-- Matcher for `^\s*\d+\.\s+[^S][^E][^L].*$` (MULTILINE | IGNORECASE). -/
def matchNumbered (s : List Char) : Option Nat := do
  let w := wsRun s
  let r := s.drop w.length
  let d := r.takeWhile Char.isDigit
  if d.isEmpty then none
  else do
    let r3 ← expectChar '.' (r.drop d.length)
    let run := wsRun r3
    if run.isEmpty then none
    else numTailAux (w.length + d.length + 1) r3 run.length

/-- The keyword lookahead of the bullet pattern:
`.*SELECT|.*FROM|.*WHERE|.*GROUP|.*ORDER` over the rest of the line. -/
def bulletKwIn (l : List Char) : Bool :=
  searchB (fun t => isPrefixCI "SELECT".data t || isPrefixCI "FROM".data t
    || isPrefixCI "WHERE".data t || isPrefixCI "GROUP".data t
    || isPrefixCI "ORDER".data t) l

/-- Backtracking over the `\s+` of the bullet pattern, guarded by the
negative lookahead. -/
def bulletTailAux (base : Nat) (r : List Char) : Nat → Option Nat
  | 0 => none
  | k + 1 =>
    let t := r.drop (k + 1)
    let l := lineRestOf t
    if !bulletKwIn l then some (base + (k + 1) + l.length)
    else bulletTailAux base r k

/-- Matcher for
`^\s*[-*]\s+(?!.*SELECT|.*FROM|.*WHERE|.*GROUP|.*ORDER).*$`
(MULTILINE | IGNORECASE). -/
def matchBullet (s : List Char) : Option Nat := do
  let w := wsRun s
  let r := s.drop w.length
  let r2 ← expectChar '-' r <|> expectChar '*' r
  let run := wsRun r2
  if run.isEmpty then none
  else bulletTailAux (w.length + 1) r2 run.length

/-- Case-insensitive substring containment. -/
def containsSubstrCI (w : String) (s : List Char) : Bool :=
  searchB (fun t => isPrefixCI w.data t) s

/-- Generic matcher for the explanatory patterns
`^\s*HEAD.*$`-shaped as `^\s*(head literals).*(query)?.*:?\s*$`
(MULTILINE | IGNORECASE): consume leading whitespace and the head, require
`QUERY` in the rest of the line when asked, then take the line and the
trailing `\s*$` absorption. -/
def expMatch (headC : List Char → Option (List Char)) (needQuery : Bool)
    (s : List Char) : Option Nat := do
  let w := wsRun s
  let r := s.drop w.length
  let r2 ← headC r
  let l := lineRestOf r2
  if needQuery && !containsSubstrCI "QUERY" l then none
  else do
    let t ← tailWsEnd (r2.drop l.length)
    some (w.length + (r.length - r2.length) + l.length + t)

/-- Head of `Here\s+is\s+the\s+` (with the mandatory whitespace after). -/
def headHereIsThe (r : List Char) : Option (List Char) := do
  let r ← litCI "HERE" r
  let r ← skipWs1 r
  let r ← litCI "IS" r
  let r ← skipWs1 r
  let r ← litCI "THE" r
  skipWs1 r

/-- Head of `The\s+following\s+query`. -/
def headTheFollowingQuery (r : List Char) : Option (List Char) := do
  let r ← litCI "THE" r
  let r ← skipWs1 r
  let r ← litCI "FOLLOWING" r
  let r ← skipWs1 r
  litCI "QUERY" r

/-- Head of `This\s+query`. -/
def headThisQuery (r : List Char) : Option (List Char) := do
  let r ← litCI "THIS" r
  let r ← skipWs1 r
  litCI "QUERY" r

/-- Head of `Query\s+explanation`. -/
def headQueryExplanation (r : List Char) : Option (List Char) := do
  let r ← litCI "QUERY" r
  let r ← skipWs1 r
  litCI "EXPLANATION" r

/-- Head of `SQL\s+Query`. -/
def headSqlQuery (r : List Char) : Option (List Char) := do
  let r ← litCI "SQL" r
  let r ← skipWs1 r
  litCI "QUERY" r

/-- The ten `explanatory_patterns`, in source order. -/
def explanatoryMatchers : List (List Char → Option Nat) :=
  [ expMatch headHereIsThe true,
    expMatch headTheFollowingQuery false,
    expMatch headThisQuery false,
    expMatch headQueryExplanation false,
    expMatch headSqlQuery false,
    expMatch (litCI "ANALYSIS") false,
    expMatch (litCI "CHART") false,
    expMatch (litCI "REPORT") false,
    expMatch (litCI "EXPLANATION") false,
    expMatch (litCI "DESCRIPTION") false ]

/-- Word-bounded hit of one of the narrative verbs of the first prose
pattern (`will|shows?|gives?|returns?|provides?|analysis|breakdown|complete`). -/
def proseKwAt (t : List Char) : Bool :=
  wordAtCI "WILL".data t || wordAtCI "SHOW".data t || wordAtCI "SHOWS".data t
  || wordAtCI "GIVE".data t || wordAtCI "GIVES".data t
  || wordAtCI "RETURN".data t || wordAtCI "RETURNS".data t
  || wordAtCI "PROVIDE".data t || wordAtCI "PROVIDES".data t
  || wordAtCI "ANALYSIS".data t || wordAtCI "BREAKDOWN".data t
  || wordAtCI "COMPLETE".data t

/-- The `(?!--)` lookahead of the prose patterns survives backtracking of
the leading `\s*` whenever the content is indented on its own line, so it
only blocks a match when the content starts at column zero of its line and
begins with `--`. -/
def proseLookaheadOk (w r : List Char) : Bool :=
  !("--".data.isPrefixOf r) || (!w.isEmpty && !(w.getLastD ' ' == '\n'))

/-- Matcher for the first prose pattern
`^\s*(?!--).*\b(?:will|shows?|gives?|returns?|provides?|analysis|breakdown|complete)\b.*(?<!;)\s*$`
(MULTILINE | IGNORECASE).  The trailing `(?<!;)\s*$` succeeds exactly when
the content line does not end in `;`. -/
def matchProse1 (s : List Char) : Option Nat :=
  let w := wsRun s
  let r := s.drop w.length
  if r.isEmpty then none
  else if !proseLookaheadOk w r then none
  else
    let l := lineRestOf r
    if !searchBnd (fun bnd t => bnd && proseKwAt t) true l then none
    else if l.getLastD ' ' == ';' then none
    else
      match tailWsEnd (r.drop l.length) with
      | none => none
      | some t => some (w.length + l.length + t)

/-- One demonstrative keyword of the second prose pattern at the head of
`t` (no trailing boundary; the regex instead demands `\s+` after it). -/
def demoKwLen (t : List Char) : Option Nat :=
  if isPrefixCI "THIS".data t then some 4
  else if isPrefixCI "THAT".data t then some 4
  else if isPrefixCI "THESE".data t then some 5
  else if isPrefixCI "THOSE".data t then some 5
  else none

/-- Index of the last newline at position ≥ 1 of a list, if any (the
backtracking target of `\s+` when the final line fails the `(?<!;)`
lookbehind). -/
def lastNlGe1 (run : List Char) : Option Nat :=
  match run with
  | [] => none
  | _ :: rest =>
    match lastNlIdx rest with
    | some k => some (k + 1)
    | none => none

/-- Validity and greedy extent contribution of one demonstrative-keyword
occurrence of the second prose pattern: the occurrence starts `o`
characters into the content, `kl` is the keyword length.  Returns the full
match extent (from the anchor). -/
def prose2Extent (wlen o kl : Nat) (afterKw : List Char) : Option Nat :=
  let run := wsRun afterKw
  if run.isEmpty then none
  else
    let zf := afterKw.drop run.length
    if zf.isEmpty then some (wlen + o + kl + run.length)
    else
      let lzf := lineRestOf zf
      if !(lzf.getLastD ' ' == ';') then
        match tailWsEnd (zf.drop lzf.length) with
        | none => none
        | some t => some (wlen + o + kl + run.length + lzf.length + t)
      else
        match lastNlGe1 run with
        | some j => some (wlen + o + kl + j)
        | none => none

/-- Scan the content line for demonstrative-keyword occurrences, keeping
the match of the largest starting offset whose continuation succeeds (the
leading `.*` is greedy).  `o` is the current offset, `bnd` the
word-boundary state. -/
def prose2ScanAux (wlen llen : Nat) : Nat → Nat → Bool → List Char → Option Nat
  | 0, _, _, _ => none
  | fuel + 1, o, bnd, t =>
    if o ≥ llen then none
    else
      let deeper :=
        match t with
        | [] => none
        | c :: cs => prose2ScanAux wlen llen fuel (o + 1) (!isWordChar c) cs
      match deeper with
      | some e => some e
      | none =>
        if bnd then
          match demoKwLen t with
          | some kl => prose2Extent wlen o kl (t.drop kl)
          | none => none
        else none

/-- Matcher for the second prose pattern
`^\s*(?!--).*\b(?:This|That|These|Those)\s+.*(?<!;)\s*$`
(MULTILINE | IGNORECASE). -/
def matchProse2 (s : List Char) : Option Nat :=
  let w := wsRun s
  let r := s.drop w.length
  if r.isEmpty then none
  else if !proseLookaheadOk w r then none
  else
    let l := lineRestOf r
    prose2ScanAux w.length l.length (l.length + 1) 0 true r

/-- The keyword guard of the prose loop:
`re.search(r'\b(?:SELECT|FROM|WHERE|GROUP|ORDER|JOIN|UNION|INSERT|UPDATE|DELETE)\b', text, re.IGNORECASE)`. -/
def hasSqlKw (s : List Char) : Bool :=
  searchBnd
    (fun bnd t => bnd &&
      (wordAtCI "SELECT".data t || wordAtCI "FROM".data t || wordAtCI "WHERE".data t
       || wordAtCI "GROUP".data t || wordAtCI "ORDER".data t || wordAtCI "JOIN".data t
       || wordAtCI "UNION".data t || wordAtCI "INSERT".data t
       || wordAtCI "UPDATE".data t || wordAtCI "DELETE".data t))
    true s

/-- Driver for one MULTILINE `re.sub(pattern, '', text)`: scan the string,
attempt the matcher at every line start, replace matches with nothing and
resume after them.  The boolean tracks whether the current position is a
line start; after a match it is recomputed from the last consumed
character. -/
def runSubAux (try_ : List Char → Option Nat) : Nat → Bool → List Char → List Char
  | 0, _, _ => []
  | _, _, [] => []
  | fuel + 1, atLS, c :: cs =>
    if atLS then
      match try_ (c :: cs) with
      | some n =>
        runSubAux try_ fuel (((c :: cs).take n).getLastD 'x' == '\n') ((c :: cs).drop n)
      | none => c :: runSubAux try_ fuel (c == '\n') cs
    else c :: runSubAux try_ fuel (c == '\n') cs

def runSub (try_ : List Char → Option Nat) (s : List Char) : List Char :=
  runSubAux try_ s.length true s

/-- Implements `re.sub(r'\n\s*\n', '\n', s)`: each newline followed through
whitespace by another newline collapses, greedily, to one newline. -/
def collapseAux : Nat → List Char → List Char
  | 0, _ => []
  | _, [] => []
  | fuel + 1, c :: cs =>
    if c == '\n' then
      match lastNlIdx (wsRun cs) with
      | some k => '\n' :: collapseAux fuel (cs.drop (k + 1))
      | none => c :: collapseAux fuel cs
    else c :: collapseAux fuel cs

def collapseBlank (s : List Char) : List Char := collapseAux s.length s

/-- Implements `re.sub(r'^\s*\n', '', s)` (no MULTILINE: anchored at the
start only): drop the leading whitespace up to and including its last
newline, when it has one. -/
def leadCut (s : List Char) : List Char :=
  match lastNlIdx (wsRun s) with
  | some k => s.drop (k + 1)
  | none => s

/-- Implements `re.sub(r'\n\s*$', '', s)`: cut at the first newline that is
followed only by whitespace. -/
def trailCut : List Char → List Char
  | [] => []
  | c :: cs => if c == '\n' && cs.all isWs then [] else c :: trailCut cs

/-- The markdown / explanatory / prose removal phase of `clean_sql_query`:
the seventeen guarded `re.sub(pattern, '', ...)` passes, in source order. -/
def removalStage (s : List Char) : List Char :=
  let s1 := runSub matchHeader s
  let s2 := runSub matchFenceSql s1
  let s3 := runSub matchFenceBare s2
  let s4 := runSub matchNumbered s3
  let s5 := runSub matchBullet s4
  let s6 := explanatoryMatchers.foldl (fun acc m => runSub m acc) s5
  let s7 := if hasSqlKw s6 then s6 else runSub matchProse1 s6
  if hasSqlKw s7 then s7 else runSub matchProse2 s7

/-- The whitespace-normalization phase of `clean_sql_query`: collapse blank
lines, cut leading and trailing blank regions, strip. -/
def wsNormalize (s : List Char) : List Char :=
  pyStrip (trailCut (leadCut (collapseBlank s)))

/-- Implements `clean_sql_query` of `sql_query_executor.py`.  The
`not isinstance(query, str)` guard of the source cannot arise in a typed
setting; the `not query` guard (empty string returned unchanged) is kept. -/
def clean_sql_query (query : String) : String :=
  if query.data.isEmpty then query
  else ⟨wsNormalize (removalStage query.data)⟩

/-! ### Batch extraction and execution (`execute_multiple_sql_code`). -/

/-- Split the input at the first occurrence of three backticks; returns the
part before (the lazy capture of `(.*?)` under DOTALL) and the remainder
after the backticks. -/
def splitAtTicks : List Char → Option (List Char × List Char)
  | [] => none
  | c :: cs =>
    if "```".data.isPrefixOf (c :: cs) then some ([], (c :: cs).drop 3)
    else
      match splitAtTicks cs with
      | some p => some (c :: p.1, p.2)
      | none => none

/-- Anchored match of one block of
`re.findall(r'```\s*sql\s*(.*?)```', sql_code, re.DOTALL)`
(the `sql` literal is case-sensitive); returns the capture and the
remainder after the closing backticks. -/
def matchSqlBlock (s : List Char) : Option (List Char × List Char) := do
  let r ← litS "```" s
  let r2 ← litS "sql" (skipWs r)
  splitAtTicks (skipWs r2)

/-- Anchored match of one block of `re.findall(r'```(.*?)```', ...)`. -/
def matchAnyBlock (s : List Char) : Option (List Char × List Char) := do
  let r ← litS "```" s
  splitAtTicks r

def findBlocksAux (m : List Char → Option (List Char × List Char)) :
    Nat → List Char → List (List Char)
  | 0, _ => []
  | _, [] => []
  | fuel + 1, c :: cs =>
    match m (c :: cs) with
    | some p => p.1 :: findBlocksAux m fuel p.2
    | none => findBlocksAux m fuel cs

/-- The fenced ```sql blocks of the input, in order. -/
def extractSqlBlocks (code : String) : List String :=
  (findBlocksAux matchSqlBlock code.length code.data).map (fun l => ⟨l⟩)

/-- The plain fenced blocks of the input (the fallback `findall`). -/
def extractAnyBlocks (code : String) : List String :=
  (findBlocksAux matchAnyBlock code.length code.data).map (fun l => ⟨l⟩)

/-- Implements `re.match(r'^\s*(SELECT|WITH|DECLARE)\b', cleaned_code,
re.IGNORECASE | re.MULTILINE)` (anchored at the start of the string). -/
def matchSqlIndicator (s : String) : Bool :=
  (litWordCI "SELECT" (skipWs s.data)).isSome
  || (litWordCI "WITH" (skipWs s.data)).isSome
  || (litWordCI "DECLARE" (skipWs s.data)).isSome

/-- The lazy tail of `(?:WITH|SELECT)\b.*?(?:;|$)` under DOTALL (no
MULTILINE): extend until a `;` (consumed) or a `$` position (end of the
string, or just before a final newline).  Returns the captured tail and
the remainder. -/
def lazyToSemiOrEnd : List Char → List Char × List Char
  | [] => ([], [])
  | [c] =>
    if c == ';' then ([';'], [])
    else if c == '\n' then ([], ['\n'])
    else ([c], [])
  | c :: cs =>
    if c == ';' then ([';'], cs)
    else
      let p := lazyToSemiOrEnd cs
      (c :: p.1, p.2)

/-- Anchored match of one capture of
`re.findall(r'((?:WITH|SELECT)\b.*?(?:;|$))', sql_code, re.DOTALL | re.IGNORECASE)`. -/
def matchPotential (s : List Char) : Option (List Char × List Char) :=
  let tryKw := fun (kw : String) =>
    match litWordCI kw s with
    | some r =>
      let p := lazyToSemiOrEnd r
      some ((s.take kw.length) ++ p.1, p.2)
    | none => none
  tryKw "WITH" <|> tryKw "SELECT"

/-- The last-resort keyword-anchored extraction, on the raw input. -/
def findPotential (code : String) : List String :=
  (findBlocksAux matchPotential code.length code.data).map (fun l => ⟨l⟩)

/-- The `queries` list of `execute_multiple_sql_code` just before its main
loop: fenced ```sql blocks, else plain fenced blocks, else the cleaned
whole input when it starts like SQL, else cleaned keyword-anchored spans. -/
def batchQueries (code : String) : List String :=
  let q1 := extractSqlBlocks code
  let q2 := if q1.isEmpty then extractAnyBlocks code else q1
  if !q2.isEmpty then q2
  else
    let cleaned_code := clean_sql_query code
    if !cleaned_code.data.isEmpty && !(pyStrip cleaned_code.data).isEmpty then
      if matchSqlIndicator cleaned_code then [cleaned_code]
      else
        ((findPotential code).map clean_sql_query).filter
          (fun c => !(pyStrip c.data).isEmpty)
    else []

/-- Outcome of the database collaborator `pd.read_sql_query` for one
statement, together with the result of the `to_json` serialization attempt:
both are environment effects, abstracted as an oracle parameter. -/
inductive DbOutcome
  | ok (row_count column_count : Nat) (columns : List String) (json : Except String String)
  | err (msg : String)

/-- What the loop body of `execute_multiple_sql_code` decides to do with
one extracted query: record it as empty, record a validation failure, or
hand it to the database collaborator. -/
inductive StepPlan
  | emptyRec
  | invalidRec (q msg : String)
  | execute (q : String)

/-- The branch taken by the loop body for one raw extracted query: strip,
clean, test for emptiness, then run the executor-side validator. -/
def planOf (q0 : String) : StepPlan :=
  let q : String := clean_sql_query ⟨pyStrip q0.data⟩
  if q.data.isEmpty then .emptyRec
  else
    let v := validate_sql_query q
    if !v.1 then .invalidRec q ("Query validation failed: " ++ v.2)
    else .execute q

/-- Per-statement result record (`status` one of success, validation_error,
format_error, execution_error, json_error).  The `column_info` entry added
on a `json_error` is a dtype dump of the collaborator response and is not
modelled. -/
structure ExecutionRecord where
  query : String
  result : String
  status : String
  row_count : Option Nat := none
  column_count : Option Nat := none
  columns : Option (List String) := none
deriving DecidableEq, Repr

/-- The record produced for one plan (with the oracle for the execute
branch); `idx` is the 0-based position, reported 1-based. -/
def recordOf (dbExec : String → DbOutcome) (idx : Nat) : StepPlan → ExecutionRecord
  | .emptyRec =>
    { query := "",
      result := "Empty query found in code block #" ++ toString (idx + 1),
      status := "validation_error" }
  | .invalidRec q msg => { query := q, result := msg, status := "validation_error" }
  | .execute q =>
    match dbExec q with
    | .ok rc cc cols (.ok j) =>
      { query := q, status := "success", result := j,
        row_count := some rc, column_count := some cc, columns := some cols }
    | .ok rc cc cols (.error e) =>
      { query := q, status := "json_error",
        result := "Error converting results to JSON: " ++ e,
        row_count := some rc, column_count := some cc, columns := some cols }
    | .err e =>
      { query := q, result := "Error executing SQL: " ++ e,
        status := "execution_error" }

/-- The statement a plan passes to `pd.read_sql_query`, if any. -/
def execOf : StepPlan → Option String
  | .execute q => some q
  | _ => none

/-- Implements `execute_multiple_sql_code` with a provided (non-None)
database connection; the `connection is None` branch performs network I/O
(`connect_to_sql_server`) and is outside the model. -/
def execute_multiple_sql_code (dbExec : String → DbOutcome) (code : String) :
    List ExecutionRecord :=
  let queries := batchQueries code
  if queries.isEmpty then
    [{ query := if code.length > 200 then (⟨code.data.take 200⟩ : String) ++ "..." else code,
       result := "No SQL queries found in the provided code. Please format queries in ```sql code blocks.",
       status := "format_error" }]
  else queries.mapIdx (fun i q => recordOf dbExec i (planOf q))

/-- The statements actually handed to the execution collaborator, in
order (independent of the oracle). -/
def executedQueries (code : String) : List String :=
  (batchQueries code).filterMap (fun q => execOf (planOf q))

/-! ## Theorems

Shared helper lemmas first, then one theorem per claim (with its
counterexample and witness where required). -/

theorem matchTopNum_isSome_of_bounded {bnd : Bool} {s : List Char} :
    matchTopBounded bnd s = true → (matchTopNum s).isSome = true := by
  unfold matchTopBounded
  cases h : matchTopNum s <;> simp [h]

theorem firstTopNum_isSome_of_hasTop :
    ∀ (s : List Char) (b : Bool), hasTopBounded b s = true → (firstTopNum s).isSome = true := by
  intro s
  induction s with
  | nil => intro b h; simp [hasTopBounded] at h
  | cons c cs ih =>
    intro b h
    simp only [hasTopBounded, Bool.or_eq_true] at h
    rcases h with h | h
    · have := matchTopNum_isSome_of_bounded h
      unfold firstTopNum
      cases hm : matchTopNum (c :: cs) <;> simp_all
    · unfold firstTopNum
      cases hm : matchTopNum (c :: cs) <;> simp_all [ih _ h]

theorem check_performance_isSome (cfg : GuardrailConfig) (q : String) :
    (check_performance cfg q).isSome = true := by
  unfold check_performance
  cases htop : hasTopBounded true (normUp q) with
  | false => simp [htop]
  | true =>
    cases hf : firstTopNum (normUp q) with
    | none =>
      have := firstTopNum_isSome_of_hasTop (normUp q) true htop
      simp [hf] at this
    | some tv => simp [htop, hf]

theorem validate_query_isSome (cfg : GuardrailConfig) (q : String) :
    (validate_query cfg q).isSome = true := by
  unfold validate_query
  cases hp : check_performance cfg q with
  | none => have := check_performance_isSome cfg q; simp [hp] at this
  | some perf => simp

/-- Claim C5: the engine is total.  For every input string (including the
empty string, whitespace, and non-SQL prose), `validate_query` with the
default configuration produces a `GuardrailResult`; the only failure point
modelled (`none`), the integer re-parse of the TOP value, is unreachable
because a word-bounded `TOP <digits>` match guarantees the unbounded
re-parse succeeds. -/
theorem claim_C5_engine_total (q : String) :
    (validate_query defaultConfig q).isSome = true :=
  validate_query_isSome defaultConfig q

/-- The guardrail verdict at the default configuration, total by
`validate_query_isSome`. -/
def validateQ (q : String) : GuardrailResult :=
  (validate_query defaultConfig q).get (validate_query_isSome defaultConfig q)

theorem validateQ_eq {q : String} {r : GuardrailResult} :
    validate_query defaultConfig q = some r → validateQ q = r := by
  intro h; simp [validateQ, h]

/-- The assembled shape of a default-configuration verdict. -/
theorem validateQ_spec (q : String) :
    ∃ perf, check_performance defaultConfig q = some perf ∧
      validateQ q =
        { is_safe := ((check_security q ++ check_safety q ++ perf ++ check_format q ++
              check_schema defaultConfig q).filter (fun v => v.blocks_execution)).isEmpty,
          violations := (check_security q ++ check_safety q ++ perf ++ check_format q ++
              check_schema defaultConfig q).filter (fun v => v.blocks_execution),
          warnings := (check_security q ++ check_safety q ++ perf ++ check_format q ++
              check_schema defaultConfig q).filter (fun v => !v.blocks_execution),
          metadata := { query_length := q.length, normalized_query := pyNormalize q } } := by
  cases hp : check_performance defaultConfig q with
  | none => have := check_performance_isSome defaultConfig q; simp [hp] at this
  | some perf =>
    refine ⟨perf, rfl, ?_⟩
    apply validateQ_eq
    unfold validate_query
    rw [hp]
    rfl

set_option maxHeartbeats 1000000 in
/-- Claim C4: the blocking invariant.  For every string, `is_safe` holds
exactly when the violations list is empty, every violation blocks
execution, and no warning does. -/
theorem claim_C4_blocking_invariant (q : String) :
    (validateQ q).is_safe = (validateQ q).violations.isEmpty ∧
    (validateQ q).violations.all (fun v => v.blocks_execution) = true ∧
    (validateQ q).warnings.all (fun v => !v.blocks_execution) = true := by
  obtain ⟨perf, _, hr⟩ := validateQ_spec q
  rw [hr]
  refine ⟨rfl, ?_, ?_⟩
  · simp only [List.all_eq_true]
    intro v hv
    exact (List.mem_filter.mp hv).2
  · simp only [List.all_eq_true]
    intro v hv
    exact (List.mem_filter.mp hv).2

theorem mem_check_security_type {q : String} {v : GuardrailViolation} :
    v ∈ check_security q → v.violation_type = .security := by
  intro hv
  unfold check_security at hv
  dsimp only [] at hv
  rcases List.mem_append.mp hv with h | h
  · obtain ⟨p, _, hp⟩ := List.mem_filterMap.mp h
    by_cases hb : p.1 = true
    · simp [hb] at hp; rw [← hp]
    · simp [hb] at hp
  · split at h
    · simp at h; rw [h]
    · simp at h

theorem mem_check_safety_type {q : String} {v : GuardrailViolation} :
    v ∈ check_safety q →
      v.violation_type = .safety ∨ v.violation_type = .performance := by
  intro hv
  unfold check_safety at hv
  dsimp only [] at hv
  rcases List.mem_append.mp hv with h | h
  · rcases List.mem_append.mp h with h2 | h2
    · obtain ⟨p, _, hp⟩ := List.mem_filterMap.mp h2
      by_cases hb : searchWord p.1.data true (normUp q) = true
      · simp [hb] at hp; left; rw [← hp]
      · simp [hb] at hp
    · split at h2
      · simp at h2; left; rw [h2]
      · simp at h2
  · split at h
    · simp at h; right; rw [h]
    · simp at h

theorem mem_check_performance_type {cfg : GuardrailConfig} {q : String}
    {L : List GuardrailViolation} {v : GuardrailViolation} :
    check_performance cfg q = some L → v ∈ L → v.violation_type = .performance := by
  intro hL hv
  unfold check_performance at hL
  have hone : ∀ (w : GuardrailViolation) (c : Prop) [Decidable c],
      w.violation_type = .performance →
      v ∈ (if c then [w] else []) → v.violation_type = .performance := by
    intro w c _ hw hm
    split at hm <;> simp at hm
    rw [hm, hw]
  cases htop : hasTopBounded true (normUp q) with
  | false =>
    simp only [htop, Bool.false_eq_true, if_false, Option.some.injEq] at hL
    rw [← hL] at hv
    rcases List.mem_append.mp hv with h | h
    · rcases List.mem_append.mp h with h | h
      · rcases List.mem_append.mp h with h | h
        · exact hone _ _ rfl h
        · exact hone _ _ rfl h
      · exact hone _ _ rfl h
    · exact hone _ _ rfl h
  | true =>
    cases hf : firstTopNum (normUp q) with
    | none => simp [htop, hf] at hL
    | some tv =>
      simp only [htop, hf, if_true, Option.some.injEq] at hL
      rw [← hL] at hv
      rcases List.mem_append.mp hv with h | h
      · rcases List.mem_append.mp h with h | h
        · rcases List.mem_append.mp h with h | h
          · rcases List.mem_append.mp h with h | h
            · exact hone _ _ rfl h
            · exact hone _ _ rfl h
          · exact hone _ _ rfl h
        · exact hone _ _ rfl h
      · exact hone _ _ rfl h

theorem mem_check_format_type {q : String} {v : GuardrailViolation} :
    v ∈ check_format q → v.violation_type = .format := by
  intro hv
  unfold check_format at hv
  dsimp only [] at hv
  split at hv
  · simp at hv; rw [hv]
  · rcases List.mem_append.mp hv with h | h
    · split at h
      · simp at h; rw [h]
      · simp at h
    · split at h
      · simp at h; rw [h]
      · simp at h

theorem mem_check_schema_type {cfg : GuardrailConfig} {q : String} {v : GuardrailViolation} :
    v ∈ check_schema cfg q → v.violation_type = .schema := by
  intro hv
  unfold check_schema at hv
  dsimp only [] at hv
  obtain ⟨t, _, ht⟩ := List.mem_filterMap.mp hv
  split at ht
  · simp at ht
  · rw [← Option.some.inj ht]

/-- Claim C3 (amended): in a default-configuration verdict, every
Format-family violation precedes every Schema-family violation (the check
families run in the order Security, Safety, Performance, Format, Schema). -/
theorem claim_C3_format_before_schema (q : String) (i j : Nat)
    (hi : i < (validateQ q).violations.length)
    (hj : j < (validateQ q).violations.length)
    (hfmt : ((validateQ q).violations.get ⟨i, hi⟩).violation_type = .format)
    (hsch : ((validateQ q).violations.get ⟨j, hj⟩).violation_type = .schema) :
    i < j := by
  obtain ⟨perf, hperf, hr⟩ := validateQ_spec q
  set F := (check_security q ++ check_safety q ++ perf ++ check_format q).filter
    (fun v => v.blocks_execution) with hF
  set S := (check_schema defaultConfig q).filter (fun v => v.blocks_execution) with hS
  have hsplit : (validateQ q).violations = F ++ S := by
    rw [hr, hF, hS]
    simp [List.filter_append, List.append_assoc]
  have hFtype : ∀ v ∈ F, v.violation_type ≠ .schema := by
    intro v hv
    have hv2 := (List.mem_filter.mp hv).1
    rcases List.mem_append.mp hv2 with h | h
    · rcases List.mem_append.mp h with h2 | h2
      · rcases List.mem_append.mp h2 with h3 | h3
        · rw [mem_check_security_type h3]; simp
        · rcases mem_check_safety_type h3 with h4 | h4 <;> rw [h4] <;> simp
      · rw [mem_check_performance_type hperf h2]; simp
    · rw [mem_check_format_type h]; simp
  have hStype : ∀ v ∈ S, v.violation_type = .schema := by
    intro v hv
    exact mem_check_schema_type (List.mem_filter.mp hv).1
  have hi' : i < F.length := by
    by_contra hc
    push_neg at hc
    have e1 : (validateQ q).violations[i]? =
        some ((validateQ q).violations.get ⟨i, hi⟩) := by
      rw [List.get_eq_getElem]
      exact List.getElem?_eq_getElem hi
    have e2 : (validateQ q).violations[i]? = (F ++ S)[i]? := by rw [hsplit]
    rw [e2, List.getElem?_append_right hc] at e1
    obtain ⟨hb, he⟩ := List.getElem?_eq_some_iff.mp e1
    have hmem : (validateQ q).violations.get ⟨i, hi⟩ ∈ S := he ▸ List.getElem_mem hb
    have := hStype _ hmem
    rw [this] at hfmt
    exact absurd hfmt (by simp)
  have hj' : F.length ≤ j := by
    by_contra hc
    push_neg at hc
    have e1 : (validateQ q).violations[j]? =
        some ((validateQ q).violations.get ⟨j, hj⟩) := by
      rw [List.get_eq_getElem]
      exact List.getElem?_eq_getElem hj
    have e2 : (validateQ q).violations[j]? = (F ++ S)[j]? := by rw [hsplit]
    rw [e2, List.getElem?_append_left hc] at e1
    obtain ⟨hb, he⟩ := List.getElem?_eq_some_iff.mp e1
    have hmem : (validateQ q).violations.get ⟨j, hj⟩ ∈ F := he ▸ List.getElem_mem hb
    exact absurd hsch (hFtype _ hmem)
  omega

/-- Claim C3, counterexample to the stated order: the query
`ABC FROM foo` triggers both a Format violation and a Schema violation, and
the Format violation comes first in the returned list (the claim asserts
every Schema violation precedes every Format violation). -/
theorem claim_C3_counterexample :
    ((validateQ "ABC FROM foo").violations.map (fun v => v.violation_type)) =
      [.format, .schema] := by decide

/-- Witness for `claim_C3_format_before_schema` at the same query. -/
theorem claim_C3_witness :
    ((validateQ "ABC FROM foo").violations.length = 2) ∧ 0 < 1 := by
  refine ⟨by decide, ?_⟩
  exact claim_C3_format_before_schema "ABC FROM foo" 0 1 (by decide) (by decide)
    (by decide) (by decide)

set_option maxHeartbeats 1000000 in
/-- Claim C2 (amended): the exact output of `quick_validate`.  On a safe
query it returns the pass message with `true`; on an unsafe query with at
least one CRITICAL violation it returns `false` with the `"; "`-joined
CRITICAL messages; on an unsafe query whose blocking violations are all
below CRITICAL it returns `(true, "Query has warnings but is allowed")` —
so its boolean does not always equal `is_safe`. -/
theorem claim_C2_quick_validate_cases (q : String) :
    ((validateQ q).is_safe = true →
      quick_validate q = some (true, "Query passed all guardrail checks")) ∧
    ((validateQ q).is_safe = false → (validateQ q).get_critical_violations ≠ [] →
      quick_validate q = some (false, String.intercalate "; "
        ((validateQ q).get_critical_violations.map (fun v => v.message)))) ∧
    ((validateQ q).is_safe = false → (validateQ q).get_critical_violations = [] →
      quick_validate q = some (true, "Query has warnings but is allowed")) := by
  cases hv : validate_query defaultConfig q with
  | none =>
    have := validate_query_isSome defaultConfig q
    simp [hv] at this
  | some r =>
    have hq : validateQ q = r := validateQ_eq hv
    rw [hq]
    unfold quick_validate
    rw [hv]
    refine ⟨?_, ?_, ?_⟩
    · intro hsafe; simp [Option.map, hsafe]
    · intro hsafe hcrit
      have : r.get_critical_violations.isEmpty = false := by
        cases he : r.get_critical_violations with
        | nil => exact absurd he hcrit
        | cons a l => simp
      simp [Option.map, hsafe, this]
    · intro hsafe hcrit
      simp [Option.map, hsafe, hcrit]

/-- Claim C2, counterexample: `SELECT a FROM foo WHERE b = 1` is unsafe
(unknown table, a HIGH blocking violation) yet `quick_validate` returns
`True` with the warnings message, so the returned boolean differs from
`is_safe` and the message is neither of the two claimed forms. -/
theorem claim_C2_counterexample :
    quick_validate "SELECT a FROM foo WHERE b = 1" =
        some (true, "Query has warnings but is allowed") ∧
      (validateQ "SELECT a FROM foo WHERE b = 1").is_safe = false := by
  constructor <;> decide

/-- Witness for `claim_C2_quick_validate_cases` at a query with a CRITICAL
violation. -/
theorem claim_C2_witness :
    (validateQ "DELETE FROM t").is_safe = false ∧
    quick_validate "DELETE FROM t" =
      some (false, "Destructive operation blocked: DELETE operation") := by
  refine ⟨by decide, ?_⟩
  have h := (claim_C2_quick_validate_cases "DELETE FROM t").2.1 (by decide) (by decide)
  rw [h]
  decide

theorem mem_check_safety_of_destructive {q : String} {op desc : String} :
    (op, desc) ∈ destructiveOps → searchWord op.data true (normUp q) = true →
    ({ violation_type := .safety, risk_level := .critical,
       message := "Destructive operation blocked: " ++ desc,
       query_snippet := none,
       suggestion := some "Only SELECT queries are allowed",
       blocks_execution := true } : GuardrailViolation) ∈ check_safety q := by
  intro hmem hs
  unfold check_safety
  dsimp only []
  apply List.mem_append_left
  apply List.mem_append_left
  apply List.mem_filterMap.mpr
  exact ⟨(op, desc), hmem, by simp [hs]⟩

theorem unsafe_of_blocking_safety {q : String} {v : GuardrailViolation} :
    v ∈ check_safety q → v.blocks_execution = true → (validateQ q).is_safe = false := by
  intro hv hb
  obtain ⟨perf, _, hr⟩ := validateQ_spec q
  rw [hr]
  have hmem : v ∈ (check_security q ++ check_safety q ++ perf ++ check_format q ++
      check_schema defaultConfig q).filter (fun w => w.blocks_execution) := by
    apply List.mem_filter.mpr
    refine ⟨?_, hb⟩
    apply List.mem_append_left
    apply List.mem_append_left
    apply List.mem_append_left
    exact List.mem_append_right _ hv
  cases he : (check_security q ++ check_safety q ++ perf ++ check_format q ++
      check_schema defaultConfig q).filter (fun w => w.blocks_execution) with
  | nil => rw [he] at hmem; simp at hmem
  | cons a l => simp [he]

/-- Claim C6 (amended): any query whose normalized (comment-stripped,
whitespace-collapsed, uppercased) text contains a whole-word `DELETE`,
`UPDATE`, `INSERT`, `DROP`, `ALTER`, `CREATE` or `TRUNCATE` is unsafe,
regardless of any other content.  (On the raw input the claim fails:
normalization removes SQL comments first, see the counterexample.) -/
theorem claim_C6_destructive_unsafe (q op : String)
    (hop : op ∈ ["DELETE", "UPDATE", "INSERT", "DROP", "ALTER", "CREATE", "TRUNCATE"])
    (hw : containsWord op (upperStr (pyNormalize q)) = true) :
    (validateQ q).is_safe = false := by
  have hs : searchWord op.data true (normUp q) = true := hw
  have hdesc : ∃ desc, (op, desc) ∈ destructiveOps := by
    fin_cases hop
    · exact ⟨"DELETE operation", by decide⟩
    · exact ⟨"UPDATE operation", by decide⟩
    · exact ⟨"INSERT operation", by decide⟩
    · exact ⟨"DROP operation", by decide⟩
    · exact ⟨"ALTER operation", by decide⟩
    · exact ⟨"CREATE operation", by decide⟩
    · exact ⟨"TRUNCATE operation", by decide⟩
  obtain ⟨desc, hmem⟩ := hdesc
  exact unsafe_of_blocking_safety (mem_check_safety_of_destructive hmem hs) rfl

/-- Claim C6, counterexample: the raw input `SELECT 1 -- DROP TABLE t`
contains a whole-word `DROP`, yet the query is safe — the destructive
keyword sits in a comment that normalization strips before the safety
check. -/
theorem claim_C6_counterexample :
    containsWord "DROP" "SELECT 1 -- DROP TABLE t" = true ∧
      (validateQ "SELECT 1 -- DROP TABLE t").is_safe = true := by
  constructor <;> decide

/-- Witness for `claim_C6_destructive_unsafe`. -/
theorem claim_C6_witness :
    containsWord "DROP" (upperStr (pyNormalize "DROP TABLE t")) = true ∧
      (validateQ "DROP TABLE t").is_safe = false :=
  ⟨by decide, claim_C6_destructive_unsafe "DROP TABLE t" "DROP" (by decide) (by decide)⟩

theorem top_msg_not_prefix_of_head {c : Char} (h : ('T' == c) = false) (t : List Char) :
    List.isPrefixOf "TOP value too large".data (c :: t) = false := by
  rw [show "TOP value too large".data = 'T' :: "OP value too large".data from rfl]
  simp only [List.isPrefixOf, h, Bool.false_and]

theorem isPrefixOf_append_self (p r : List Char) : List.isPrefixOf p (p ++ r) = true := by
  induction p with
  | nil => simp [List.isPrefixOf]
  | cons a as ih => simp [List.isPrefixOf, ih]

theorem top_msg_prefix_of_top (t : String) :
    List.isPrefixOf "TOP value too large".data ("TOP value too large (" ++ t).data = true := by
  show List.isPrefixOf "TOP value too large".data
    ("TOP value too large (".data ++ t.data) = true
  rw [show "TOP value too large (".data
      = "TOP value too large".data ++ " (".data from rfl]
  rw [List.append_assoc]
  exact isPrefixOf_append_self _ _

theorem any_top_msg_single_false {c : Prop} [Decidable c] (w : GuardrailViolation)
    (hw : List.isPrefixOf "TOP value too large".data w.message.data = false) :
    (if c then [w] else []).any
      (fun v => List.isPrefixOf "TOP value too large".data v.message.data) = false := by
  split <;> simp [hw]

/-- The condition of the amended claim C9, written from its words: the
"TOP value too large" violation appears exactly when the word-bounded
`\bTOP\s+\d+\b` search succeeds and the value of the first unbounded
`TOP\s+(\d+)` occurrence exceeds `max_rows`. -/
def topViolationExpected (q : String) : Bool :=
  hasTopBounded true (normUp q) &&
    (match firstTopNum (normUp q) with
     | some n => decide (n > defaultConfig.max_rows)
     | none => false)

/-- Claim C9 (amended): when the performance check returns, it emits the
"TOP value too large" violation exactly under `topViolationExpected` — the
trigger is the word-bounded TOP search, while the value compared against
`max_rows` is the first unbounded occurrence of `TOP <digits>` (the two can
disagree, see the counterexample). -/
theorem claim_C9_top_check (q : String) (L : List GuardrailViolation)
    (hL : check_performance defaultConfig q = some L) :
    L.any (fun v => List.isPrefixOf "TOP value too large".data v.message.data) =
      topViolationExpected q := by
  unfold check_performance at hL
  have hlen : ∀ t : String, List.isPrefixOf "TOP value too large".data
      ("Query too long (" ++ t).data = false := by
    intro t
    show List.isPrefixOf "TOP value too large".data
      ('Q' :: ("uery too long (".data ++ t.data)) = false
    exact top_msg_not_prefix_of_head (by decide) _
  have hjoin : ∀ t : String, List.isPrefixOf "TOP value too large".data
      ("Too many JOINs (" ++ t).data = false := by
    intro t
    show List.isPrefixOf "TOP value too large".data
      ('T' :: ("oo many JOINs (".data ++ t.data)) = false
    rw [show "TOP value too large".data = 'T' :: "OP value too large".data from rfl]
    simp only [List.isPrefixOf, Bool.and_eq_false_iff]
    right
    exact Or.inl (by decide)
  have hsub : ∀ t : String, List.isPrefixOf "TOP value too large".data
      ("Too many subqueries (" ++ t).data = false := by
    intro t
    show List.isPrefixOf "TOP value too large".data
      ('T' :: ("oo many subqueries (".data ++ t.data)) = false
    rw [show "TOP value too large".data = 'T' :: "OP value too large".data from rfl]
    simp only [List.isPrefixOf, Bool.and_eq_false_iff]
    right
    exact Or.inl (by decide)
  have hstar : List.isPrefixOf "TOP value too large".data
      ("SELECT * may return unnecessary columns").data = false := by decide
  cases htop : hasTopBounded true (normUp q) with
  | false =>
    simp only [htop, Bool.false_eq_true, if_false, Option.some.injEq] at hL
    rw [← hL]
    unfold topViolationExpected
    rw [htop]
    simp only [List.any_append, Bool.false_and, Bool.or_eq_false_iff]
    refine ⟨⟨⟨?_, ?_⟩, ?_⟩, ?_⟩
    · exact any_top_msg_single_false _ (hlen _)
    · exact any_top_msg_single_false _ (hjoin _)
    · exact any_top_msg_single_false _ (hsub _)
    · exact any_top_msg_single_false _ hstar
  | true =>
    cases hf : firstTopNum (normUp q) with
    | none => simp [htop, hf] at hL
    | some tv =>
      simp only [htop, hf, if_true, Option.some.injEq] at hL
      rw [← hL]
      unfold topViolationExpected
      rw [htop, hf]
      simp only [List.any_append, Bool.true_and]
      rw [any_top_msg_single_false _ (hlen _), any_top_msg_single_false _ (hjoin _),
        any_top_msg_single_false _ (hsub _), any_top_msg_single_false _ hstar]
      simp only [Bool.false_or]
      by_cases hcmp : tv > defaultConfig.max_rows
      · simp only [hcmp, if_pos, decide_eq_true hcmp]
        simp [top_msg_prefix_of_top]
      · simp only [if_neg hcmp]
        simp [hcmp]

/-- Claim C9, counterexample: in `STOP 99999` the first `TOP <digits>`
substring occurrence has value 99999 > 10000, yet the performance check
emits no violation at all — the word-bounded trigger `\bTOP\s+\d+\b` does
not match inside `STOP`. -/
theorem claim_C9_counterexample :
    firstTopNum (normUp "STOP 99999") = some 99999 ∧
      99999 > defaultConfig.max_rows ∧
      check_performance defaultConfig "STOP 99999" = some [] := by
  refine ⟨by decide, by decide, by decide⟩

/-- Witness for `claim_C9_top_check`. -/
theorem claim_C9_witness :
    (check_performance defaultConfig "SELECT TOP 20000 a FROM b").map
        (fun L => L.any
          (fun v => List.isPrefixOf "TOP value too large".data v.message.data)) =
      some (topViolationExpected "SELECT TOP 20000 a FROM b") := by
  cases hL : check_performance defaultConfig "SELECT TOP 20000 a FROM b" with
  | none => exact absurd hL (by decide)
  | some L => simp [claim_C9_top_check _ L hL]

/-- Claim C10: the executor-side validator accepts only SELECT-shaped
statements — a `true` verdict implies the normalized text starts with
`SELECT` (word-bounded, after whitespace) or matches the CTE opening
`\s*WITH\s+.*?\s+AS\s*\(`. -/
theorem claim_C10_valid_shape (q : String)
    (h : (validate_sql_query q).1 = true) :
    (litWordCI "SELECT" (skipWs (pyNormalize q).data)).isSome = true ∨
      matchCteStart (pyNormalize q).data = true := by
  unfold validate_sql_query at h
  dsimp only [] at h
  by_cases hc : matchCteStart (pyNormalize q).data = true
  · right; exact hc
  · left
    rw [if_neg (by simpa using hc)] at h
    by_cases hs : (litWordCI "SELECT" (skipWs (pyNormalize q).data)).isSome = true
    · exact hs
    · rw [if_pos (by simpa using hs)] at h
      simp at h

/-- Witness for `claim_C10_valid_shape`. -/
theorem claim_C10_witness :
    (validate_sql_query "SELECT 1").1 = true ∧
      ((litWordCI "SELECT" (skipWs (pyNormalize "SELECT 1").data)).isSome = true ∨
        matchCteStart (pyNormalize "SELECT 1").data = true) :=
  ⟨by decide, claim_C10_valid_shape "SELECT 1" (by decide)⟩

/-- Claim C1 (amended): every statement the batch executor hands to the
database collaborator has passed the executor-side `validate_sql_query`.
The Guardrail Engine of `guardrails.py` is not consulted on this path, and
a statement it would block can still execute (see the counterexample). -/
theorem claim_C1_executed_implies_executor_valid (code q : String)
    (h : q ∈ executedQueries code) : (validate_sql_query q).1 = true := by
  unfold executedQueries at h
  obtain ⟨q0, _, hq0⟩ := List.mem_filterMap.mp h
  unfold planOf at hq0
  dsimp only [] at hq0
  split at hq0
  · simp [execOf] at hq0
  · split at hq0
    · simp [execOf] at hq0
    · rename_i hvalid
      simp only [execOf, Option.some.injEq] at hq0
      rw [← hq0]
      simpa using hvalid

/-- Claim C1, counterexample: the Guardrail Engine marks
`SELECT a FROM foo WHERE x = 1` unsafe (unknown table), yet the batch
executor passes exactly this statement to the execution collaborator. -/
theorem claim_C1_counterexample :
    executedQueries "```sql SELECT a FROM foo WHERE x = 1```" =
        ["SELECT a FROM foo WHERE x = 1"] ∧
      (validateQ "SELECT a FROM foo WHERE x = 1").is_safe = false := by
  constructor <;> decide

/-- Witness for `claim_C1_executed_implies_executor_valid`. -/
theorem claim_C1_witness :
    "SELECT 1" ∈ executedQueries "```sql SELECT 1```" ∧
      (validate_sql_query "SELECT 1").1 = true :=
  ⟨by decide,
    claim_C1_executed_implies_executor_valid "```sql SELECT 1```" "SELECT 1" (by decide)⟩

theorem batchQueries_of_blocks {code : String} (h : extractSqlBlocks code ≠ []) :
    batchQueries code = extractSqlBlocks code := by
  unfold batchQueries
  have h1 : (extractSqlBlocks code).isEmpty = false := by
    cases hE : extractSqlBlocks code with
    | nil => exact absurd hE h
    | cons a l => simp
  simp [h1]

/-- Claim C7: positional correspondence.  With a provided connection and at
least one fenced ```sql block, the batch executor returns exactly one
record per block, in block order; a block whose content cleans to the empty
string yields the validation-error record "Empty query found in code block
#k" (1-based) at exactly its position. -/
theorem claim_C7_positional (dbExec : String → DbOutcome) (code : String)
    (h : extractSqlBlocks code ≠ []) :
    (execute_multiple_sql_code dbExec code).length = (extractSqlBlocks code).length ∧
    ∀ (k : Nat) (hk : k < (extractSqlBlocks code).length),
      clean_sql_query ⟨pyStrip ((extractSqlBlocks code).get ⟨k, hk⟩).data⟩ = "" →
      (execute_multiple_sql_code dbExec code)[k]? =
        some { query := "",
               result := "Empty query found in code block #" ++ toString (k + 1),
               status := "validation_error" } := by
  have hb := batchQueries_of_blocks h
  have h1 : (batchQueries code).isEmpty = false := by
    rw [hb]
    cases hE : extractSqlBlocks code with
    | nil => exact absurd hE h
    | cons a l => simp
  have hexec : execute_multiple_sql_code dbExec code =
      (extractSqlBlocks code).mapIdx (fun i q => recordOf dbExec i (planOf q)) := by
    unfold execute_multiple_sql_code
    rw [hb] at h1
    simp [hb, h1]
  constructor
  · rw [hexec]; simp [List.length_mapIdx]
  · intro k hk hcl
    have hkm : k < ((extractSqlBlocks code).mapIdx
        (fun i q => recordOf dbExec i (planOf q))).length := by
      simpa [List.length_mapIdx] using hk
    have e1 : (execute_multiple_sql_code dbExec code)[k]? =
        ((extractSqlBlocks code).mapIdx (fun i q => recordOf dbExec i (planOf q)))[k]? := by
      rw [hexec]
    rw [e1, List.getElem?_eq_getElem hkm]
    have hget := List.get_mapIdx (extractSqlBlocks code)
      (fun i q => recordOf dbExec i (planOf q)) k hk hkm
    simp only [List.get_eq_getElem] at hget hcl
    rw [hget]
    have hplan : planOf (extractSqlBlocks code)[k] = .emptyRec := by
      unfold planOf
      rw [hcl]
      rfl
    rw [hplan]
    rfl

/-- A trivial database oracle used to instantiate executor witnesses. -/
def dbStub : String → DbOutcome := fun _ => .err "no database"

/-- Witness for `claim_C7_positional` on an input with one empty and one
non-empty ```sql block. -/
theorem claim_C7_witness :
    extractSqlBlocks "```sql\n```\n```sql\nSELECT 1\n```" ≠ [] ∧
    (execute_multiple_sql_code dbStub "```sql\n```\n```sql\nSELECT 1\n```").length = 2 ∧
    (execute_multiple_sql_code dbStub "```sql\n```\n```sql\nSELECT 1\n```")[0]? =
      some { query := "", result := "Empty query found in code block #1",
             status := "validation_error" } := by
  have h := claim_C7_positional dbStub "```sql\n```\n```sql\nSELECT 1\n```" (by decide)
  refine ⟨by decide, ?_, ?_⟩
  · rw [h.1]; decide
  · have h2 := h.2 0 (by decide) (by decide)
    rw [h2]
    decide

/-! ### Claim C8: idempotence of the cleaner.

The whitespace-normalization phase (`wsNormalize`) is idempotent outright;
the removal stage is not (a markdown header is deleted only at column 0, so
one round of stripping can expose new removable content).  The lemmas below
establish the former and the counterexample refutes unconditional
idempotence. -/

/-- `lastNlIdx` returns `none` exactly on newline-free lists. -/
theorem lastNlIdx_eq_none {l : List Char} : lastNlIdx l = none ↔ '\n' ∉ l := by
  induction l with
  | nil => simp [lastNlIdx]
  | cons c cs ih =>
    simp only [lastNlIdx, List.mem_cons]
    cases h : lastNlIdx cs with
    | some k =>
      have hmem : '\n' ∈ cs := by
        by_contra hmem
        rw [ih.mpr hmem] at h
        simp at h
      simp [hmem]
    | none =>
      have hmem := ih.mp h
      by_cases hc : c = '\n'
      · subst hc; simp
      · simp [hmem, Ne.symm hc, hc]

/-- A `some` result of `lastNlIdx` is a valid index. -/
theorem lastNlIdx_lt {l : List Char} {k : Nat} (h : lastNlIdx l = some k) :
    k < l.length := by
  induction l generalizing k with
  | nil => cases h
  | cons c cs ih =>
    unfold lastNlIdx at h
    split at h
    · rename_i j hj
      cases h
      have := ih hj
      simp only [List.length_cons]
      omega
    · split at h
      · cases h; simp
      · cases h

/-- Everything after the last newline is newline-free. -/
theorem lastNlIdx_drop {l : List Char} {k : Nat} (h : lastNlIdx l = some k) :
    '\n' ∉ l.drop (k + 1) := by
  induction l generalizing k with
  | nil => cases h
  | cons c cs ih =>
    unfold lastNlIdx at h
    split at h
    · rename_i j hj
      cases h
      simpa using ih hj
    · rename_i hnone
      split at h
      · cases h
        simpa using lastNlIdx_eq_none.mp hnone
      · cases h

/-- Dropping within the `takeWhile` region commutes with `takeWhile`. -/
theorem takeWhile_drop_comm {α : Type} (p : α → Bool) (l : List α) (n : Nat)
    (h : n ≤ (l.takeWhile p).length) :
    (l.drop n).takeWhile p = (l.takeWhile p).drop n := by
  induction l generalizing n with
  | nil => simp
  | cons c cs ih =>
    cases n with
    | zero => simp
    | succ m =>
      by_cases hc : p c
      · rw [List.takeWhile_cons_of_pos hc] at h ⊢
        simp only [List.length_cons] at h
        simp only [List.drop_succ_cons]
        exact ih m (Nat.le_of_succ_le_succ h)
      · rw [List.takeWhile_cons_of_neg hc] at h
        simp at h

/-- `takeWhile` commutes with `take`. -/
theorem takeWhile_take_comm {α : Type} (p : α → Bool) (l : List α) (n : Nat) :
    (l.take n).takeWhile p = (l.takeWhile p).take n := by
  induction l generalizing n with
  | nil => simp
  | cons c cs ih =>
    cases n with
    | zero => simp
    | succ m =>
      by_cases hc : p c
      · simp [hc, ih m]
      · simp [hc]

/-- `dropWhile` is a `drop` by the length of the `takeWhile` region. -/
theorem dropWhile_eq_drop {α : Type} (p : α → Bool) (l : List α) :
    l.dropWhile p = l.drop (l.takeWhile p).length := by
  induction l with
  | nil => rfl
  | cons c cs ih =>
    by_cases hc : p c
    · simp [hc, ih]
    · simp [hc]

/-- A string is collapse-free when no newline is followed, through
whitespace, by another newline: the blank-line collapse cannot fire. -/
def collapseFree : List Char → Prop
  | [] => True
  | c :: cs => (c = '\n' → '\n' ∉ wsRun cs) ∧ collapseFree cs

theorem collapseFree_drop (l : List Char) (n : Nat) (h : collapseFree l) :
    collapseFree (l.drop n) := by
  induction l generalizing n with
  | nil => simpa using h
  | cons c cs ih =>
    cases n with
    | zero => exact h
    | succ m => exact ih m h.2

theorem collapseFree_take (l : List Char) (n : Nat) (h : collapseFree l) :
    collapseFree (l.take n) := by
  induction l generalizing n with
  | nil => simpa using h
  | cons c cs ih =>
    cases n with
    | zero => exact trivial
    | succ m =>
      refine ⟨fun hc hmem => h.1 hc ?_, ih m h.2⟩
      rw [wsRun, takeWhile_take_comm] at hmem
      exact List.mem_of_mem_take hmem

/-- The collapse pass never emits a whitespace run containing a newline when
its input's leading whitespace run contains none. -/
theorem noNl_wsRun_collapseAux (fuel : Nat) :
    ∀ t : List Char, '\n' ∉ wsRun t → '\n' ∉ wsRun (collapseAux fuel t) := by
  induction fuel with
  | zero => intro t _; simp [collapseAux, wsRun]
  | succ fuel ih =>
    intro t h
    cases t with
    | nil => simpa [collapseAux] using h
    | cons c cs =>
      by_cases hc : c = '\n'
      · exfalso
        apply h
        subst hc
        simp [wsRun, List.takeWhile_cons, show isWs '\n' = true from rfl]
      · rw [show collapseAux (fuel + 1) (c :: cs) = c :: collapseAux fuel cs from by
          simp [collapseAux, hc]]
        by_cases hw : isWs c
        · rw [wsRun, List.takeWhile_cons_of_pos hw]
          rw [wsRun, List.takeWhile_cons_of_pos hw] at h
          intro hmem
          rcases List.mem_cons.mp hmem with h1 | h1
          · exact hc h1.symm
          · exact ih cs (fun hx => h (List.mem_cons_of_mem _ hx)) h1
        · rw [wsRun, List.takeWhile_cons_of_neg hw]
          simp

/-- The output of the collapse pass is collapse-free. -/
theorem collapseFree_collapseAux (fuel : Nat) :
    ∀ t : List Char, collapseFree (collapseAux fuel t) := by
  induction fuel with
  | zero => intro t; simp [collapseAux, collapseFree]
  | succ fuel ih =>
    intro t
    cases t with
    | nil => simp [collapseAux, collapseFree]
    | cons c cs =>
      by_cases hc : c = '\n'
      · subst hc
        rw [show collapseAux (fuel + 1) ('\n' :: cs) =
            (match lastNlIdx (wsRun cs) with
             | some k => '\n' :: collapseAux fuel (cs.drop (k + 1))
             | none => '\n' :: collapseAux fuel cs) from by
          simp [collapseAux]]
        cases hlk : lastNlIdx (wsRun cs) with
        | some k =>
          refine ⟨fun _ => ?_, ih _⟩
          apply noNl_wsRun_collapseAux
          have hk := lastNlIdx_lt hlk
          rw [wsRun, takeWhile_drop_comm isWs cs (k + 1) hk]
          exact lastNlIdx_drop hlk
        | none =>
          refine ⟨fun _ => ?_, ih _⟩
          exact noNl_wsRun_collapseAux fuel cs (lastNlIdx_eq_none.mp hlk)
      · rw [show collapseAux (fuel + 1) (c :: cs) = c :: collapseAux fuel cs from by
          simp [collapseAux, hc]]
        exact ⟨fun hx => absurd hx hc, ih cs⟩

/-- The collapse pass is the identity on collapse-free input. -/
theorem collapseAux_eq_self (fuel : Nat) :
    ∀ l : List Char, l.length ≤ fuel → collapseFree l → collapseAux fuel l = l := by
  induction fuel with
  | zero =>
    intro l h _
    rw [List.length_eq_zero.mp (Nat.le_zero.mp h)]
    rfl
  | succ fuel ih =>
    intro l h hcf
    cases l with
    | nil => rfl
    | cons c cs =>
      simp only [List.length_cons] at h
      have hlen : cs.length ≤ fuel := Nat.le_of_succ_le_succ h
      by_cases hc : c = '\n'
      · subst hc
        have hnone : lastNlIdx (wsRun cs) = none := lastNlIdx_eq_none.mpr (hcf.1 rfl)
        rw [show collapseAux (fuel + 1) ('\n' :: cs) =
            (match lastNlIdx (wsRun cs) with
             | some k => '\n' :: collapseAux fuel (cs.drop (k + 1))
             | none => '\n' :: collapseAux fuel cs) from by
          simp [collapseAux]]
        rw [hnone]
        rw [ih cs hlen hcf.2]
      · rw [show collapseAux (fuel + 1) (c :: cs) = c :: collapseAux fuel cs from by
          simp [collapseAux, hc]]
        rw [ih cs hlen hcf.2]

/-- `leadCut` is the identity when the first character is not whitespace. -/
theorem leadCut_eq_self {l : List Char}
    (h : ∀ c, l.head? = some c → isWs c = false) : leadCut l = l := by
  cases l with
  | nil => rfl
  | cons c cs =>
    have hc : isWs c = false := h c rfl
    unfold leadCut
    rw [show wsRun (c :: cs) = [] from by
      rw [wsRun, List.takeWhile_cons_of_neg (by simp [hc])]]
    rfl

/-- `trailCut` is the identity when the last character is not whitespace. -/
theorem trailCut_eq_self {l : List Char}
    (h : ∀ c, l.getLast? = some c → isWs c = false) : trailCut l = l := by
  induction l with
  | nil => rfl
  | cons c cs ih =>
    cases cs with
    | nil =>
      have hc : isWs c = false := h c (by simp)
      have hcn : (c == '\n') = false := by
        by_contra hx
        have : c = '\n' := by
          cases hb : c == '\n'
          · exact absurd hb hx
          · exact beq_iff_eq.mp hb
        rw [this] at hc
        simp [isWs] at hc
      simp [trailCut, hcn]
    | cons d ds =>
      have htail : ∀ e, (d :: ds).getLast? = some e → isWs e = false := by
        intro e he
        exact h e (by rw [List.getLast?_cons_cons]; exact he)
      have hall : (d :: ds).all isWs = false := by
        by_contra hx
        have hx' : (d :: ds).all isWs = true := by
          cases hb : (d :: ds).all isWs
          · exact absurd hb hx
          · rfl
        have hne : (d :: ds) ≠ [] := by simp
        have hw : isWs ((d :: ds).getLast hne) = true :=
          List.all_eq_true.mp hx' _ (List.getLast_mem hne)
        rw [htail _ (List.getLast?_eq_getLast _ hne)] at hw
        cases hw
      rw [show trailCut (c :: d :: ds) = c :: trailCut (d :: ds) from by
        simp [trailCut, hall]]
      rw [ih htail]

/-- `pyStrip` is the identity on already-stripped strings. -/
theorem pyStrip_eq_self {l : List Char}
    (h1 : ∀ c, l.head? = some c → isWs c = false)
    (h2 : ∀ c, l.getLast? = some c → isWs c = false) : pyStrip l = l := by
  have e1 : l.dropWhile isWs = l := by
    cases l with
    | nil => rfl
    | cons c cs => rw [List.dropWhile_cons_of_neg (by simp [h1 c rfl])]
  have e2 : l.reverse.dropWhile isWs = l.reverse := by
    rcases hr : l.reverse with _ | ⟨e, es⟩
    · rfl
    · have he : l.getLast? = some e := by
        rw [← List.head?_reverse, hr]
        rfl
      rw [List.dropWhile_cons_of_neg (by simp [h2 e he])]
  unfold pyStrip
  rw [e1, e2, List.reverse_reverse]

/-- `trailCut` only ever cuts a suffix. -/
theorem trailCut_eq_take (l : List Char) : ∃ n, trailCut l = l.take n := by
  induction l with
  | nil => exact ⟨0, rfl⟩
  | cons c cs ih =>
    by_cases hc : (c == '\n' && cs.all isWs) = true
    · exact ⟨0, by simp [trailCut, hc]⟩
    · obtain ⟨n, hn⟩ := ih
      exact ⟨n + 1, by simp [trailCut, hc, hn]⟩

/-- `pyStrip` as a `take` of a `dropWhile`. -/
theorem pyStrip_eq_take_dropWhile (l : List Char) :
    pyStrip l = (l.dropWhile isWs).take
      ((l.dropWhile isWs).length -
        ((l.dropWhile isWs).reverse.takeWhile isWs).length) := by
  unfold pyStrip
  rw [dropWhile_eq_drop isWs (l.dropWhile isWs).reverse, List.drop_reverse,
    List.reverse_reverse]

/-- A `some` head of a `take` is the head of the list. -/
theorem head_of_take_head {α : Type} {m : List α} {n : Nat} {c : α}
    (h : (m.take n).head? = some c) : m.head? = some c := by
  cases m with
  | nil => simp at h
  | cons d ds =>
    cases n with
    | zero => simp at h
    | succ k => simpa using h

/-- The head of a `dropWhile p` result falsifies `p`. -/
theorem dropWhile_head_not {α : Type} {p : α → Bool} {l : List α} {c : α}
    (h : (l.dropWhile p).head? = some c) : p c = false := by
  induction l with
  | nil => simp at h
  | cons d ds ih =>
    by_cases hd : p d
    · rw [List.dropWhile_cons_of_pos hd] at h
      exact ih h
    · rw [List.dropWhile_cons_of_neg hd] at h
      have : d = c := by simpa using h
      subst this
      simpa using hd

/-- The head of a stripped string is not whitespace. -/
theorem pyStrip_head (l : List Char) :
    ∀ c, (pyStrip l).head? = some c → isWs c = false := by
  intro c hc
  rw [pyStrip_eq_take_dropWhile] at hc
  exact dropWhile_head_not (head_of_take_head hc)

/-- The last character of a stripped string is not whitespace. -/
theorem pyStrip_last (l : List Char) :
    ∀ c, (pyStrip l).getLast? = some c → isWs c = false := by
  intro c hc
  unfold pyStrip at hc
  rw [List.getLast?_reverse] at hc
  exact dropWhile_head_not hc

/-- `pyStrip` preserves collapse-freedom. -/
theorem collapseFree_pyStrip {l : List Char} (h : collapseFree l) :
    collapseFree (pyStrip l) := by
  rw [pyStrip_eq_take_dropWhile]
  apply collapseFree_take
  rw [dropWhile_eq_drop]
  exact collapseFree_drop _ _ h

/-- The whitespace-normalized form is collapse-free. -/
theorem collapseFree_wsNormalize (s : List Char) :
    collapseFree (wsNormalize s) := by
  unfold wsNormalize
  apply collapseFree_pyStrip
  obtain ⟨n, hn⟩ := trailCut_eq_take (leadCut (collapseBlank s))
  rw [hn]
  apply collapseFree_take
  have hcb : collapseFree (collapseBlank s) := collapseFree_collapseAux _ _
  unfold leadCut
  split
  · exact collapseFree_drop _ _ hcb
  · exact hcb

/-- The whitespace-normalization phase of the cleaner is idempotent. -/
theorem wsNormalize_idem (s : List Char) :
    wsNormalize (wsNormalize s) = wsNormalize s := by
  have hh : ∀ c, (wsNormalize s).head? = some c → isWs c = false :=
    pyStrip_head _
  have hl : ∀ c, (wsNormalize s).getLast? = some c → isWs c = false :=
    pyStrip_last _
  have hcf : collapseFree (wsNormalize s) := collapseFree_wsNormalize s
  conv_lhs => rw [wsNormalize]
  rw [show collapseBlank (wsNormalize s) = wsNormalize s from
    collapseAux_eq_self _ _ (Nat.le_refl _) hcf]
  rw [leadCut_eq_self hh, trailCut_eq_self hl, pyStrip_eq_self hh hl]

/-- Unfolding equation for `clean_sql_query`. -/
theorem clean_sql_query_eq (q : String) :
    clean_sql_query q =
      if q.data.isEmpty then q else ⟨wsNormalize (removalStage q.data)⟩ := rfl

/-- **C8** (corrected).  The cleaner is idempotent on every input on which
the markdown/prose removal stage fires neither on the input nor on its
cleaned form — in particular the whitespace-normalization phase alone is
always idempotent (`wsNormalize_idem`).  Unconditional idempotence of
`clean_sql_query` is refuted by `claim_C8_counterexample`. -/
theorem claim_C8_idempotent_unless_removal (x : String)
    (h1 : removalStage x.data = x.data)
    (h2 : removalStage (clean_sql_query x).data = (clean_sql_query x).data) :
    clean_sql_query (clean_sql_query x) = clean_sql_query x := by
  by_cases hx : x.data.isEmpty
  · have hxx : clean_sql_query x = x := by
      rw [clean_sql_query_eq, if_pos hx]
    rw [hxx, hxx]
  · have hcx : clean_sql_query x = ⟨wsNormalize x.data⟩ := by
      rw [clean_sql_query_eq, if_neg hx, h1]
    by_cases hy : (clean_sql_query x).data.isEmpty
    · conv_lhs => rw [clean_sql_query_eq]
      rw [if_pos hy]
    · conv_lhs => rw [clean_sql_query_eq]
      rw [if_neg hy, h2, hcx]
      show (⟨wsNormalize (wsNormalize x.data)⟩ : String) = ⟨wsNormalize x.data⟩
      rw [wsNormalize_idem]

/-- **C8** counterexample: cleaning is not idempotent in general.  The
removal stage deletes a markdown header only at column 0, so the first
round's whitespace stripping can expose new removable content: cleaning
`" # a"` yields `"# a"`, and cleaning that yields `""`. -/
theorem claim_C8_counterexample :
    clean_sql_query (clean_sql_query " # a") ≠ clean_sql_query " # a" := by
  decide

/-- Witness for `claim_C8_idempotent_unless_removal` at `"SELECT 1"`. -/
theorem claim_C8_witness :
    removalStage "SELECT 1".data = "SELECT 1".data ∧
    removalStage (clean_sql_query "SELECT 1").data =
      (clean_sql_query "SELECT 1").data ∧
    clean_sql_query (clean_sql_query "SELECT 1") = clean_sql_query "SELECT 1" :=
  ⟨by decide, by decide,
    claim_C8_idempotent_unless_removal "SELECT 1" (by decide) (by decide)⟩

end SqlSpec

